import Mathlib

/-!
Verification of the fleeti build-and-release control plane (humaidq/fleeti).

This file shallowly embeds the build pipeline of the repository:
the build orchestrator state transitions (`routes/build_pipeline.go`),
the persistent build log writer, artifact publication and canonical URL
selection, installer artifact collection, fleet activation, the crash
recovery sweep and build mutation operations (`db/models.go`), the
incremental log read endpoint, and kernel configuration validation
(`routes/profile_kernel.go`).  Go strings are modelled as Lean strings
(Go's byte-lexicographic order on valid UTF-8 agrees with codepoint
order, which is Lean's string order); Go byte slices are modelled as
`List Nat`.  Functions from the Go standard library used by the code
(`strings.TrimSpace`, `url.PathEscape`, `strconv.ParseInt`,
`encoding/base64`, `crypto/sha256`) are modelled here under `go`-prefixed
names, faithful to their documented behaviour.
-/

namespace Fleeti

/-! ## Go string primitives -/

/-- Unicode white space as used by Go's `unicode.IsSpace` (the set of
code points with the White_Space property). -/
def goIsSpace (c : Char) : Bool :=
  c.toNat = 0x20 ∨ (0x9 ≤ c.toNat ∧ c.toNat ≤ 0xD) ∨ c.toNat = 0x85 ∨ c.toNat = 0xA0 ∨
    c.toNat = 0x1680 ∨ (0x2000 ≤ c.toNat ∧ c.toNat ≤ 0x200A) ∨ c.toNat = 0x2028 ∨
    c.toNat = 0x2029 ∨ c.toNat = 0x202F ∨ c.toNat = 0x205F ∨ c.toNat = 0x3000

/-- Character list with leading and trailing white space removed. -/
def trimSpaceChars (l : List Char) : List Char :=
  ((l.dropWhile goIsSpace).reverse.dropWhile goIsSpace).reverse

/-- Model of Go's `strings.TrimSpace`. -/
def goTrimSpace (s : String) : String :=
  ⟨trimSpaceChars s.data⟩

/-- Model of Go's `strings.ToLower`, restricted to its ASCII action (every
string that appears in the verified claims is ASCII). -/
def goToLower (s : String) : String :=
  ⟨s.data.map fun c => if 0x41 ≤ c.toNat ∧ c.toNat ≤ 0x5A then Char.ofNat (c.toNat + 0x20) else c⟩

/-- Model of Go's `strings.HasSuffix`. -/
def goHasSuffix (s suffix : String) : Bool :=
  suffix.data.isSuffixOf s.data

/-- Model of Go's `strings.Contains` for a single-character substring. -/
def goContainsChar (s : String) (c : Char) : Bool :=
  s.data.contains c

/-- UTF-8 encoding of one character, as byte values. -/
def utf8Bytes (c : Char) : List Nat :=
  let n := c.toNat
  if n < 0x80 then [n]
  else if n < 0x800 then [0xC0 ||| (n >>> 6), 0x80 ||| (n &&& 0x3F)]
  else if n < 0x10000 then
    [0xE0 ||| (n >>> 12), 0x80 ||| ((n >>> 6) &&& 0x3F), 0x80 ||| (n &&& 0x3F)]
  else
    [0xF0 ||| (n >>> 18), 0x80 ||| ((n >>> 12) &&& 0x3F),
     0x80 ||| ((n >>> 6) &&& 0x3F), 0x80 ||| (n &&& 0x3F)]

/-- Whether Go's `url.PathEscape` leaves the byte `b` unescaped: ASCII
alphanumerics, the unreserved marks, and the reserved characters a path
segment may contain verbatim. -/
def pathSegmentByteUnescaped (b : Nat) : Bool :=
  (0x61 ≤ b && b ≤ 0x7A) || (0x41 ≤ b && b ≤ 0x5A) || (0x30 ≤ b && b ≤ 0x39) ||
    b = 0x2D || b = 0x5F || b = 0x2E || b = 0x7E ||
    b = 0x24 || b = 0x26 || b = 0x2B || b = 0x3A || b = 0x3D || b = 0x40

/-- Upper-case hex digit for a value below 16. -/
def upperHexDigit (n : Nat) : Char :=
  if n < 10 then Char.ofNat (0x30 + n) else Char.ofNat (0x37 + n)

/-- Model of Go's `url.PathEscape`: percent-escape every UTF-8 byte that a
path segment may not contain verbatim. -/
def pathEscape (s : String) : String :=
  ⟨(s.data.flatMap utf8Bytes).flatMap fun b =>
    if pathSegmentByteUnescaped b then [Char.ofNat b]
    else ['%', upperHexDigit (b / 16), upperHexDigit (b % 16)]⟩

/-! ## Database build rows and status constants (`db/models.go`) -/

def BuildStatusQueued : String := "queued"
def BuildStatusRunning : String := "running"
def BuildStatusSucceeded : String := "succeeded"
def BuildStatusFailed : String := "failed"

def BuildInstallerStatusNotRequested : String := "not_requested"
def BuildInstallerStatusQueued : String := "queued"
def BuildInstallerStatusRunning : String := "running"
def BuildInstallerStatusSucceeded : String := "succeeded"
def BuildInstallerStatusFailed : String := "failed"

/-- One row of the `builds` table, with the columns touched by the build
pipeline.  Timestamps are abstract instants (`Option Nat`, `none` for SQL
NULL). -/
structure BuildRow where
  id : String
  profileRevisionID : String
  fleetID : String
  version : String
  status : String
  artifactPath : String
  installerStatus : String
  installerArtifactPath : String
  createdAt : Nat
  startedAt : Option Nat
  finishedAt : Option Nat
  installerStartedAt : Option Nat
  installerFinishedAt : Option Nat
  deriving Repr, DecidableEq

/-! ## Crash recovery sweep (`FailRunningBuilds`, `FailRunningBuildInstallers`) -/

/-- Effect of the `FailRunningBuilds` UPDATE statement on one row: rows whose
status is `running` move to `failed` with `artifact_path` cleared and
`finished_at` set to now; all other rows are untouched. -/
def failRunningBuildRow (now : Nat) (b : BuildRow) : BuildRow :=
  if b.status = BuildStatusRunning then
    { b with status := BuildStatusFailed, artifactPath := "", finishedAt := some now }
  else b

/-- Model of `db.FailRunningBuilds`: applies the UPDATE to every row of the
`builds` table and returns the new table together with the number of rows
affected (`RowsAffected`). -/
def FailRunningBuilds (now : Nat) (builds : List BuildRow) : List BuildRow × Nat :=
  (builds.map (failRunningBuildRow now),
    (builds.filter fun b => b.status = BuildStatusRunning).length)

/-- Effect of the `FailRunningBuildInstallers` UPDATE statement on one row. -/
def failRunningBuildInstallerRow (now : Nat) (b : BuildRow) : BuildRow :=
  if b.installerStatus = BuildInstallerStatusRunning then
    { b with installerStatus := BuildInstallerStatusFailed, installerArtifactPath := "",
             installerFinishedAt := some now }
  else b

/-- Model of `db.FailRunningBuildInstallers`. -/
def FailRunningBuildInstallers (now : Nat) (builds : List BuildRow) : List BuildRow × Nat :=
  (builds.map (failRunningBuildInstallerRow now),
    (builds.filter fun b => b.installerStatus = BuildInstallerStatusRunning).length)

/-- C2: the crash-recovery sweep (`FailRunningBuilds`, and independently
`FailRunningBuildInstallers`) transitions exactly the builds whose status
(resp. installer status) is `running` to `failed` with the artifact URL
cleared, returns the count of builds affected, and leaves every build in
any other state entirely unchanged. -/
theorem c2_crash_recovery_sweep (now : Nat) (builds : List BuildRow) :
    (FailRunningBuilds now builds).2 =
      (builds.filter fun b => b.status = BuildStatusRunning).length ∧
    (FailRunningBuilds now builds).1.length = builds.length ∧
    (∀ (i : Nat) (b : BuildRow), builds[i]? = some b → b.status = BuildStatusRunning →
      (FailRunningBuilds now builds).1[i]? =
        some { b with status := BuildStatusFailed, artifactPath := "",
                      finishedAt := some now }) ∧
    (∀ (i : Nat) (b : BuildRow), builds[i]? = some b → b.status ≠ BuildStatusRunning →
      (FailRunningBuilds now builds).1[i]? = some b) ∧
    (FailRunningBuildInstallers now builds).2 =
      (builds.filter fun b => b.installerStatus = BuildInstallerStatusRunning).length ∧
    (∀ (i : Nat) (b : BuildRow), builds[i]? = some b → b.installerStatus = BuildInstallerStatusRunning →
      (FailRunningBuildInstallers now builds).1[i]? =
        some { b with installerStatus := BuildInstallerStatusFailed,
                      installerArtifactPath := "", installerFinishedAt := some now }) ∧
    (∀ (i : Nat) (b : BuildRow), builds[i]? = some b → b.installerStatus ≠ BuildInstallerStatusRunning →
      (FailRunningBuildInstallers now builds).1[i]? = some b) := by
  refine ⟨rfl, by simp [FailRunningBuilds], ?_, ?_, rfl, ?_, ?_⟩ <;>
    intro i b hb hs <;>
    simp [FailRunningBuilds, FailRunningBuildInstallers, hb,
      failRunningBuildRow, failRunningBuildInstallerRow, hs]

/-- Sample build row used to instantiate theorems at concrete inputs. -/
def sampleBuildRow (status artifact : String) : BuildRow :=
  { id := "b1", profileRevisionID := "pr1", fleetID := "f1", version := "v1.0.0",
    status := status, artifactPath := artifact,
    installerStatus := BuildInstallerStatusNotRequested, installerArtifactPath := "",
    createdAt := 0, startedAt := none, finishedAt := none,
    installerStartedAt := none, installerFinishedAt := none }

/-- Witness for C2: of three builds in states queued, running, succeeded,
exactly the running one becomes failed with a cleared artifact. -/
theorem c2_crash_recovery_sweep_witness :
    (FailRunningBuilds 7 [sampleBuildRow BuildStatusQueued "",
        sampleBuildRow BuildStatusRunning "",
        sampleBuildRow BuildStatusSucceeded "/update/artifacts/b1/a_b.efi"]).1[1]? =
      some { sampleBuildRow BuildStatusRunning "" with
              status := BuildStatusFailed, artifactPath := "", finishedAt := some 7 } ∧
    (FailRunningBuilds 7 [sampleBuildRow BuildStatusQueued "",
        sampleBuildRow BuildStatusRunning "",
        sampleBuildRow BuildStatusSucceeded "/update/artifacts/b1/a_b.efi"]).1[0]? =
      some (sampleBuildRow BuildStatusQueued "") ∧
    (FailRunningBuilds 7 [sampleBuildRow BuildStatusQueued "",
        sampleBuildRow BuildStatusRunning "",
        sampleBuildRow BuildStatusSucceeded "/update/artifacts/b1/a_b.efi"]).1[2]? =
      some (sampleBuildRow BuildStatusSucceeded "/update/artifacts/b1/a_b.efi") := by
  refine ⟨?_, ?_, ?_⟩
  · exact (c2_crash_recovery_sweep 7 _).2.2.1 1 _ (by decide) (by decide)
  · exact (c2_crash_recovery_sweep 7 _).2.2.2.1 0 _ (by decide) (by decide)
  · exact (c2_crash_recovery_sweep 7 _).2.2.2.1 2 _ (by decide) (by decide)

/-! ## String ordering and sorting (model of Go's `sort.Strings`) -/

/-- Byte-lexicographic comparison of character lists (Go compares strings
byte-wise; on valid UTF-8 this coincides with codepoint order). -/
def charListLe (s t : List Char) : Bool :=
  match s, t with
  | [], _ => true
  | _ :: _, [] => false
  | x :: xs, y :: ys => x.toNat < y.toNat || (x = y && charListLe xs ys)

/-- Go's string `<=`. -/
def goStringLe (s t : String) : Bool :=
  charListLe s.data t.data

/-- Insert into a sorted list of strings. -/
def insertSortedString (x : String) : List String → List String
  | [] => [x]
  | y :: ys => if goStringLe x y then x :: y :: ys else y :: insertSortedString x ys

/-- Model of Go's `sort.Strings` (ascending byte-lexicographic sort; all
sorting algorithms agree on lists of strings because the order is total and
equal strings are identical). -/
def sortStrings : List String → List String
  | [] => []
  | x :: xs => insertSortedString x (sortStrings xs)

/-! ## Artifact filename recognition (`routes/update_artifacts.go`) -/

def checksumManifestFileName : String := "SHA256SUMS"
def updatesArtifactsDirName : String := "artifacts"
def installerArtifactsDirName : String := "installer"

/-- Matcher for the regular expression fragment `[^/]+_[^/]+`: no slash, and
an underscore that is neither the first nor the last character boundary (at
least one character on each side of some underscore). -/
def idVersionStemMatch (l : List Char) : Bool :=
  l.all (· ≠ '/') &&
    l.enum.any fun p => p.2 = '_' && 1 ≤ p.1 && p.1 + 1 < l.length

/-- Model of the `nixStoreRawArtifactPattern` regular expression
`^[^/]+_[^/]+\.nix-store\.raw$` used by `isUpdateArtifactFileName`. -/
def nixStoreRawArtifactMatch (name : String) : Bool :=
  goHasSuffix name ".nix-store.raw" && idVersionStemMatch (name.data.take (name.data.length - 14))

/-- Model of the `ukiArtifactPattern` regular expression
`^[^/]+_[^/]+\.efi$` used by `isUpdateArtifactFileName`. -/
def ukiArtifactMatch (name : String) : Bool :=
  goHasSuffix name ".efi" && idVersionStemMatch (name.data.take (name.data.length - 4))

/-- Model of `isUpdateArtifactFileName` (`routes/update_artifacts.go`). -/
def isUpdateArtifactFileName (name : String) : Bool :=
  !(name == "") && !(goContainsChar name '/') &&
    (nixStoreRawArtifactMatch name || ukiArtifactMatch name)

/-! ## Artifact publication (`routes/build_pipeline.go`) -/

/-- One directory entry of the build result directory, with the metadata the
publisher inspects (`os.ReadDir` entry plus `entry.Info()`). -/
structure DirEntry where
  name : String
  isDir : Bool
  isRegular : Bool
  mode : Nat
  deriving Repr, DecidableEq

/-- Model of `choosePrimaryArtifactURL`: preference order `.nix-store.raw`,
then `.efi`, then the checksum manifest, then the first listed name. -/
def choosePrimaryArtifactURL (buildID : String) (artifactNames : List String) : String :=
  let pfx := "/update/" ++ pathEscape updatesArtifactsDirName ++ "/" ++ pathEscape buildID ++ "/"
  match artifactNames.find? (fun n => goHasSuffix n ".nix-store.raw") with
  | some n => pfx ++ pathEscape n
  | none =>
    match artifactNames.find? (fun n => goHasSuffix n ".efi") with
    | some n => pfx ++ pathEscape n
    | none =>
      match artifactNames.find? (fun n => n == checksumManifestFileName) with
      | some n => pfx ++ pathEscape n
      | none => pfx ++ pathEscape (artifactNames.headD "")

/-- Whether `publishBuildArtifacts` copies (publishes) a result directory
entry: not the checksum manifest, a matching update artifact filename, not a
directory, and a regular file. -/
def publishedEntryOK (e : DirEntry) : Bool :=
  !(e.name == checksumManifestFileName) && isUpdateArtifactFileName e.name &&
    !e.isDir && e.isRegular

/-- Model of `publishBuildArtifacts`: the filename filtering, the sort, and
the canonical URL computation.  File copies are assumed to succeed (the
claims are about name selection, not I/O failure). -/
def publishBuildArtifacts (resultEntries : List DirEntry) (buildID : String) :
    Except String String :=
  let buildID := goTrimSpace buildID
  if buildID = "" then .error "build ID is required"
  else if resultEntries = [] then .error "build produced no artifacts"
  else
    let artifactNames := (resultEntries.filter publishedEntryOK).map (·.name)
    if artifactNames = [] then
      .error "build produced no artifacts matching update naming patterns"
    else
      .ok (choosePrimaryArtifactURL buildID (sortStrings artifactNames))

/-! ## Build creation and update (`db/models.go`) -/

/-- Split a character list at every occurrence of `sep` (model of Go's
`strings.Split` with a one-character separator). -/
def splitOnChar (sep : Char) : List Char → List (List Char)
  | [] => [[]]
  | c :: rest =>
    match splitOnChar sep rest with
    | [] => [[]]
    | h :: t => if c = sep then [] :: h :: t else (c :: h) :: t

/-- Character class `[0-9A-Za-z-]` of semantic-version identifiers. -/
def semverIdentChar (c : Char) : Bool :=
  ('0' ≤ c && c ≤ '9') || ('A' ≤ c && c ≤ 'Z') || ('a' ≤ c && c ≤ 'z') || c = '-'

/-- Dot-separated nonempty identifier sequence
(`[0-9A-Za-z-]+(\.[0-9A-Za-z-]+)*`). -/
def semverIdentsOK (l : List Char) : Bool :=
  !(l == []) && (splitOnChar '.' l).all fun seg => !(seg == []) && seg.all semverIdentChar

/-- Parse the numeric fragment `(0|[1-9]\d*)`, returning the remaining
characters on success. -/
def semverNum : List Char → Option (List Char)
  | [] => none
  | c :: rest =>
    if c = '0' then some rest
    else if '1' ≤ c ∧ c ≤ '9' then some (rest.dropWhile fun d => '0' ≤ d && d ≤ '9')
    else none

/-- Suffix of a semantic version after the patch number: optional
`-prerelease` and optional `+buildmetadata`. -/
def semverSuffixOK (l : List Char) : Bool :=
  match l with
  | [] => true
  | '-' :: more =>
    let pre := more.takeWhile fun c => semverIdentChar c || c = '.'
    let rest := more.drop pre.length
    semverIdentsOK pre &&
      (match rest with
       | [] => true
       | '+' :: b => b.all (fun c => semverIdentChar c || c = '.') && semverIdentsOK b
       | _ => false)
  | '+' :: b => b.all (fun c => semverIdentChar c || c = '.') && semverIdentsOK b
  | _ => false

/-- Model of `isSemanticVersion` (`db/models.go`): the anchored pattern
`v(0|[1-9]\d*)\.(0|[1-9]\d*)\.(0|[1-9]\d*)` with optional pre-release and
build-metadata suffixes, applied to the trimmed value. -/
def isSemanticVersion (value : String) : Bool :=
  match (goTrimSpace value).data with
  | 'v' :: rest =>
    match semverNum rest with
    | none => false
    | some r1 =>
      match r1 with
      | '.' :: r1 =>
        match semverNum r1 with
        | none => false
        | some r2 =>
          match r2 with
          | '.' :: r2 =>
            match semverNum r2 with
            | none => false
            | some r3 => semverSuffixOK r3
          | _ => false
      | _ => false
  | _ => false

structure CreateBuildInput where
  profileID : String
  fleetID : String
  version : String

/-- Model of `db.CreateBuild`: input validation in source order, with the
database-dependent existence checks supplied as booleans, returning the
row INSERTed into `builds` (status `queued`, empty artifact path, and the
installer columns taking their schema defaults `not_requested` and empty). -/
def CreateBuild (input : CreateBuildInput)
    (profileExists fleetExists profileAssignedToFleet : Bool)
    (newID latestRevisionID : String) (now : Nat) : Except String BuildRow :=
  let profileID := goTrimSpace input.profileID
  let fleetID := goTrimSpace input.fleetID
  let version := goTrimSpace input.version
  if profileID = "" then .error "profile is required"
  else if fleetID = "" then .error "fleet is required"
  else if version = "" then .error "version is required"
  else if !isSemanticVersion version then .error "version must be a semantic version"
  else if !profileExists then .error "profile not found"
  else if !fleetExists then .error "fleet not found"
  else if !profileAssignedToFleet then .error "profile is not assigned to fleet"
  else
    .ok { id := newID, profileRevisionID := latestRevisionID, fleetID := fleetID,
          version := version, status := BuildStatusQueued, artifactPath := "",
          installerStatus := BuildInstallerStatusNotRequested, installerArtifactPath := "",
          createdAt := now, startedAt := none, finishedAt := none,
          installerStartedAt := none, installerFinishedAt := none }

def validBuildStatuses : List String :=
  [BuildStatusQueued, BuildStatusRunning, BuildStatusSucceeded, BuildStatusFailed]

/-- Model of `normalizeBuildStatus`. -/
def normalizeBuildStatus (raw : String) : Except String String :=
  let status := goToLower (goTrimSpace raw)
  if status = "" then .ok BuildStatusQueued
  else if validBuildStatuses.contains status then .ok status
  else .error "invalid status"

/-- Effect of the `UpdateBuild` UPDATE statement on the matched row: status
and artifact are overwritten; `started_at` is set when first entering
`running`; `finished_at` is set on entering a terminal status. -/
def updateBuildRowSet (status artifact : String) (now : Nat) (b : BuildRow) : BuildRow :=
  { b with
    status := status
    artifactPath := artifact
    startedAt :=
      if status = BuildStatusRunning ∧ b.startedAt = none then some now else b.startedAt
    finishedAt :=
      if status = BuildStatusSucceeded ∨ status = BuildStatusFailed then some now
      else b.finishedAt }

/-- Model of `db.UpdateBuild` restricted to the matched row: trims the
artifact, normalizes the status, and applies the UPDATE. -/
def UpdateBuild (status artifact : String) (now : Nat) (b : BuildRow) :
    Except String BuildRow :=
  match normalizeBuildStatus status with
  | .error e => .error e
  | .ok normalizedStatus => .ok (updateBuildRowSet normalizedStatus (goTrimSpace artifact) now b)

/-! ## C1: the succeeded-iff-artifact invariant -/

/-- Builds reachable through the lifecycle the orchestrator implements: the
row `CreateBuild` inserts, the `executeBuild` transitions to `running`,
`failed` (error and panic paths), and `succeeded` (carrying the URL returned
by `publishBuildArtifacts`), and the crash-recovery sweep. -/
inductive BuildReachable : BuildRow → Prop
  | created (input : CreateBuildInput) (pe fe pa : Bool) (newID latestRevisionID : String)
      (now : Nat) (b : BuildRow) :
      CreateBuild input pe fe pa newID latestRevisionID now = .ok b → BuildReachable b
  | toRunning (b b' : BuildRow) (now : Nat) : BuildReachable b →
      UpdateBuild BuildStatusRunning "" now b = .ok b' → BuildReachable b'
  | toFailed (b b' : BuildRow) (now : Nat) : BuildReachable b →
      UpdateBuild BuildStatusFailed "" now b = .ok b' → BuildReachable b'
  | toSucceeded (b b' : BuildRow) (now : Nat) (resultEntries : List DirEntry)
      (buildID url : String) : BuildReachable b →
      publishBuildArtifacts resultEntries buildID = .ok url →
      UpdateBuild BuildStatusSucceeded url now b = .ok b' → BuildReachable b'
  | sweep (b : BuildRow) (now : Nat) : BuildReachable b →
      BuildReachable (failRunningBuildRow now b)

/-- Trimming keeps a string nonempty when its first character is a slash. -/
theorem goTrimSpace_ne_empty_of_head_slash (s : String) (t : List Char)
    (h : s.data = '/' :: t) : goTrimSpace s ≠ "" := by
  intro hcon
  have hdata : trimSpaceChars s.data = [] := congrArg String.data hcon
  rw [h] at hdata
  unfold trimSpaceChars at hdata
  have h1 : List.dropWhile goIsSpace ('/' :: t) = '/' :: t := by
    rw [List.dropWhile_cons_of_neg (by decide)]
  rw [h1, List.reverse_eq_nil_iff, List.dropWhile_eq_nil_iff] at hdata
  exact absurd (hdata '/' (by simp)) (by decide)

/-- The canonical primary URL always begins with a slash. -/
theorem choosePrimaryArtifactURL_head_slash (buildID : String) (names : List String) :
    ∃ t, (choosePrimaryArtifactURL buildID names).data = '/' :: t := by
  unfold choosePrimaryArtifactURL
  dsimp only
  repeat' split
  all_goals exact ⟨_, rfl⟩

/-- A URL returned by `publishBuildArtifacts` survives the trim in
`UpdateBuild` as a nonempty string. -/
theorem publish_url_trim_ne_empty (resultEntries : List DirEntry) (buildID url : String)
    (h : publishBuildArtifacts resultEntries buildID = .ok url) :
    goTrimSpace url ≠ "" := by
  unfold publishBuildArtifacts at h
  dsimp only at h
  split at h
  · simp at h
  · split at h
    · simp at h
    · split at h
      · simp at h
      · have hurl : url = choosePrimaryArtifactURL (goTrimSpace buildID)
            (sortStrings ((resultEntries.filter publishedEntryOK).map (·.name))) := by
          cases h; rfl
        obtain ⟨t, ht⟩ := choosePrimaryArtifactURL_head_slash (goTrimSpace buildID)
          (sortStrings ((resultEntries.filter publishedEntryOK).map (·.name)))
        exact hurl ▸ goTrimSpace_ne_empty_of_head_slash _ t ht

/-- A row inserted by `CreateBuild` is queued with an empty artifact path. -/
theorem CreateBuild_ok_fields (input : CreateBuildInput)
    (pe fe pa : Bool) (newID latestRevisionID : String) (now : Nat) (b : BuildRow)
    (hc : CreateBuild input pe fe pa newID latestRevisionID now = .ok b) :
    b.status = BuildStatusQueued ∧ b.artifactPath = "" := by
  unfold CreateBuild at hc
  dsimp only at hc
  repeat' split at hc
  all_goals first
  | exact (Except.noConfusion hc)
  | (cases hc; exact ⟨rfl, rfl⟩)

/-- C1: for every build created by `CreateBuild` and mutated only by the
orchestrator's transitions and the crash-recovery sweep, the artifact URL is
non-empty if and only if the status is `succeeded`. -/
theorem c1_artifact_iff_succeeded (b : BuildRow) (h : BuildReachable b) :
    b.status = BuildStatusSucceeded ↔ b.artifactPath ≠ "" := by
  induction h with
  | created input pe fe pa newID latestRevisionID now b hc =>
    obtain ⟨hs, ha⟩ := CreateBuild_ok_fields input pe fe pa newID latestRevisionID now b hc
    rw [hs, ha]
    decide
  | toRunning b b' now _ hu _ =>
    have hn : normalizeBuildStatus BuildStatusRunning = .ok BuildStatusRunning := rfl
    unfold UpdateBuild at hu
    rw [hn] at hu
    cases hu
    constructor
    · intro hcon
      have h2 : BuildStatusRunning = BuildStatusSucceeded := hcon
      exact absurd h2 (by decide)
    · intro hcon; exact absurd rfl hcon
  | toFailed b b' now _ hu _ =>
    have hn : normalizeBuildStatus BuildStatusFailed = .ok BuildStatusFailed := rfl
    unfold UpdateBuild at hu
    rw [hn] at hu
    cases hu
    constructor
    · intro hcon
      have h2 : BuildStatusFailed = BuildStatusSucceeded := hcon
      exact absurd h2 (by decide)
    · intro hcon; exact absurd rfl hcon
  | toSucceeded b b' now resultEntries buildID url _ hp hu _ =>
    have hn : normalizeBuildStatus BuildStatusSucceeded = .ok BuildStatusSucceeded := rfl
    unfold UpdateBuild at hu
    rw [hn] at hu
    cases hu
    have hne := publish_url_trim_ne_empty resultEntries buildID url hp
    constructor
    · intro _; exact hne
    · intro _; rfl
  | sweep b now _ ih =>
    unfold failRunningBuildRow
    split
    · constructor
      · intro hcon
        have h2 : BuildStatusFailed = BuildStatusSucceeded := hcon
        exact absurd h2 (by decide)
      · intro hcon; exact absurd rfl hcon
    · exact ih

/-- Witness for C1: the invariant holds at a concrete freshly created build. -/
theorem c1_artifact_iff_succeeded_witness :
    (sampleBuildRow BuildStatusQueued "").status = BuildStatusSucceeded ↔
      (sampleBuildRow BuildStatusQueued "").artifactPath ≠ "" :=
  c1_artifact_iff_succeeded _
    (BuildReachable.created ⟨"p1", "f1", "v1.0.0"⟩ true true true "b1" "pr1" 0 _ rfl)

/-! ## Persistent build log writer (`persistentBuildLogWriter`) -/

def buildLogFlushSize : Nat := 4096

/-- State of one `persistentBuildLogWriter` together with its durable chunk
store: the in-memory buffer (bytes), the next sequence ID the store will
assign, and the appended chunks in insertion order.  Durable appends are
assumed to succeed (`AppendBuildLogChunk` errors are logged and ignored by
the writer, and the round-trip claim assumes every append succeeds). -/
structure LogWriterState where
  buffer : List Nat
  nextID : Int
  store : List (Int × List Nat)
  deriving Repr, DecidableEq

def initLogWriter : LogWriterState :=
  { buffer := [], nextID := 1, store := [] }

/-- Model of `flushLocked`: an empty buffer is not persisted; otherwise the
whole buffer is appended to the store as a single chunk and reset. -/
def logWriterFlushLocked (s : LogWriterState) : LogWriterState :=
  if s.buffer = [] then s
  else { buffer := [], nextID := s.nextID + 1, store := s.store ++ [(s.nextID, s.buffer)] }

/-- Model of `persistentBuildLogWriter.Write`: append the incoming bytes to
the buffer, then flush when the buffer size reaches the threshold or the
just-written bytes contain a newline (byte 10). -/
def logWriterWrite (s : LogWriterState) (p : List Nat) : LogWriterState :=
  let s1 := { s with buffer := s.buffer ++ p }
  if buildLogFlushSize ≤ s1.buffer.length ∨ p.contains 10 then logWriterFlushLocked s1
  else s1

/-- Model of the explicit final `Flush` deferred around the process wait. -/
def logWriterFlush (s : LogWriterState) : LogWriterState :=
  logWriterFlushLocked s

/-- Concatenation of all bytes durably stored so far. -/
def storedBytes (s : LogWriterState) : List Nat :=
  (s.store.map (·.2)).flatten

/-- Well-formedness of the chunk store: the next ID is positive, stored IDs
are positive and below the next ID, and strictly increasing in list order. -/
def storeIDsOK (s : LogWriterState) : Prop :=
  0 < s.nextID ∧ (∀ c ∈ s.store, 0 < c.1 ∧ c.1 < s.nextID) ∧
    s.store.Pairwise (fun a b => a.1 < b.1)

theorem flushLocked_storedBytes (s : LogWriterState) :
    storedBytes (logWriterFlushLocked s) = storedBytes s ++ s.buffer := by
  unfold logWriterFlushLocked storedBytes
  split
  · simp_all
  · simp

theorem flushLocked_buffer (s : LogWriterState) :
    (logWriterFlushLocked s).buffer = [] := by
  unfold logWriterFlushLocked
  split <;> simp_all

theorem write_stream (s : LogWriterState) (p : List Nat) :
    storedBytes (logWriterWrite s p) ++ (logWriterWrite s p).buffer =
      storedBytes s ++ s.buffer ++ p := by
  unfold logWriterWrite
  dsimp only
  split
  · rw [flushLocked_storedBytes, flushLocked_buffer]
    simp [storedBytes]
  · simp [storedBytes]

theorem foldl_write_stream (writes : List (List Nat)) (s : LogWriterState) :
    storedBytes (writes.foldl logWriterWrite s) ++ (writes.foldl logWriterWrite s).buffer =
      storedBytes s ++ s.buffer ++ writes.flatten := by
  induction writes generalizing s with
  | nil => simp
  | cons p rest ih =>
    simp only [List.foldl_cons, List.flatten_cons]
    rw [ih, write_stream]
    simp [List.append_assoc]

theorem flushLocked_storeIDsOK (s : LogWriterState) (h : storeIDsOK s) :
    storeIDsOK (logWriterFlushLocked s) := by
  obtain ⟨hn, hb, hp⟩ := h
  unfold logWriterFlushLocked
  split
  · exact ⟨hn, hb, hp⟩
  · refine ⟨?_, ?_, ?_⟩
    · have h0 : (0 : Int) < s.nextID + 1 := by omega
      exact h0
    · intro c hc
      rcases List.mem_append.mp hc with hmem | hmem
      · obtain ⟨h1, h2⟩ := hb c hmem
        have h3 : c.1 < s.nextID + 1 := by omega
        exact ⟨h1, h3⟩
      · simp at hmem
        subst hmem
        have h3 : s.nextID < s.nextID + 1 := by omega
        exact ⟨hn, h3⟩
    · rw [List.pairwise_append]
      refine ⟨hp, List.pairwise_singleton _ _, ?_⟩
      intro a ha b hb2
      simp at hb2
      subst hb2
      exact (hb a ha).2

theorem write_storeIDsOK (s : LogWriterState) (p : List Nat) (h : storeIDsOK s) :
    storeIDsOK (logWriterWrite s p) := by
  unfold logWriterWrite
  dsimp only
  split
  · exact flushLocked_storeIDsOK _ h
  · exact h

theorem foldl_write_storeIDsOK (writes : List (List Nat)) (s : LogWriterState)
    (h : storeIDsOK s) : storeIDsOK (writes.foldl logWriterWrite s) := by
  induction writes generalizing s with
  | nil => exact h
  | cons p rest ih => exact ih _ (write_storeIDsOK s p h)

/-- C3: for any sequence of writes to the persistent build log writer, with
every durable append succeeding, the stored chunks carry strictly increasing
sequence IDs, and reading back all chunks after cursor 0 in ascending ID
order and concatenating them reproduces exactly the bytes written. -/
theorem c3_log_round_trip (writes : List (List Nat)) :
    (logWriterFlush (writes.foldl logWriterWrite initLogWriter)).store.Pairwise
      (fun a b => a.1 < b.1) ∧
    (((logWriterFlush (writes.foldl logWriterWrite initLogWriter)).store.filter
        (fun c => 0 < c.1)).map (·.2)).flatten = writes.flatten := by
  have hids : storeIDsOK (logWriterFlush (writes.foldl logWriterWrite initLogWriter)) :=
    flushLocked_storeIDsOK _ (foldl_write_storeIDsOK writes initLogWriter
      (by refine ⟨by simp [initLogWriter], by simp [initLogWriter], by simp [initLogWriter]⟩))
  obtain ⟨hn, hpos, hpair⟩ := hids
  refine ⟨hpair, ?_⟩
  have hfilter : ((logWriterFlush (writes.foldl logWriterWrite initLogWriter)).store.filter
      (fun c => 0 < c.1)) = (logWriterFlush (writes.foldl logWriterWrite initLogWriter)).store := by
    rw [List.filter_eq_self]
    intro a ha
    exact decide_eq_true (hpos a ha).1
  rw [hfilter]
  have hbytes : storedBytes (logWriterFlush (writes.foldl logWriterWrite initLogWriter)) =
      writes.flatten := by
    unfold logWriterFlush
    rw [flushLocked_storedBytes, foldl_write_stream]
    simp [initLogWriter, storedBytes]
  exact hbytes


/-! ## C4: canonical primary URL selection -/

theorem charListLe_refl (l : List Char) : charListLe l l = true := by
  induction l with
  | nil => rfl
  | cons a as ih => simp [charListLe, ih]

theorem goStringLe_refl (s : String) : goStringLe s s = true :=
  charListLe_refl s.data

/-- Build result directory for the C4 scenario: `x.efi`, `x.nix-store.raw`
and a pre-generated `SHA256SUMS`, with `x = "x_1"` (the artifact naming
patterns require an id and a version separated by an underscore). -/
def demoPrimaryResultEntries : List DirEntry :=
  [{ name := "SHA256SUMS", isDir := false, isRegular := true, mode := 420 },
   { name := "x_1.efi", isDir := false, isRegular := true, mode := 420 },
   { name := "x_1.nix-store.raw", isDir := false, isRegular := true, mode := 420 }]

/-- C4: for every non-empty sorted list of published primary-build artifact
filenames the canonical URL is, in preference order, that of a
`.nix-store.raw` file, else of a `.efi` file, else of the checksum manifest
if present, else of the lexicographically first published filename; and
publishing a result directory holding `x.efi`, `x.nix-store.raw` and
`SHA256SUMS` yields the URL of `x.nix-store.raw`. -/
theorem c4_primary_url_selection (buildID : String) (names : List String)
    (hne : names ≠ []) (hsorted : names.Pairwise (fun a b => goStringLe a b = true)) :
    (∃ n ∈ names,
      choosePrimaryArtifactURL buildID names =
        "/update/" ++ pathEscape updatesArtifactsDirName ++ "/" ++ pathEscape buildID ++ "/" ++
          pathEscape n ∧
      (goHasSuffix n ".nix-store.raw" = true ∨
       ((∀ m ∈ names, goHasSuffix m ".nix-store.raw" = false) ∧ goHasSuffix n ".efi" = true) ∨
       ((∀ m ∈ names, goHasSuffix m ".nix-store.raw" = false ∧ goHasSuffix m ".efi" = false) ∧
         n = checksumManifestFileName) ∨
       ((∀ m ∈ names, goHasSuffix m ".nix-store.raw" = false ∧ goHasSuffix m ".efi" = false ∧
           m ≠ checksumManifestFileName) ∧ ∀ m ∈ names, goStringLe n m = true))) ∧
    publishBuildArtifacts demoPrimaryResultEntries "B7" =
      .ok "/update/artifacts/B7/x_1.nix-store.raw" := by
  constructor
  · unfold choosePrimaryArtifactURL
    dsimp only
    rcases hraw : names.find? (fun m => goHasSuffix m ".nix-store.raw") with _ | n1
    · rcases hefi : names.find? (fun m => goHasSuffix m ".efi") with _ | n2
      · rcases hman : names.find? (fun m => m == checksumManifestFileName) with _ | n3
        · rcases names with _ | ⟨h0, t0⟩
          · exact absurd rfl hne
          · refine ⟨h0, List.mem_cons_self h0 t0, by simp [hraw, hefi, hman], ?_⟩
            refine Or.inr (Or.inr (Or.inr ⟨?_, ?_⟩))
            · intro m hm
              have hr := List.find?_eq_none.mp hraw m hm
              have he := List.find?_eq_none.mp hefi m hm
              have hmf := List.find?_eq_none.mp hman m hm
              refine ⟨by simpa using hr, by simpa using he, ?_⟩
              intro hcon
              exact hmf (by simp [hcon])
            · intro m hm
              rcases List.mem_cons.mp hm with hm | hm
              · rw [hm]; exact goStringLe_refl h0
              · exact (List.pairwise_cons.mp hsorted).1 m hm
        · have hmem := List.mem_of_find?_eq_some hman
          have heq : n3 = checksumManifestFileName := by
            have := List.find?_some hman
            simpa using this
          refine ⟨n3, hmem, by simp [hraw, hefi, hman], ?_⟩
          refine Or.inr (Or.inr (Or.inl ⟨?_, heq⟩))
          intro m hm
          have hr := List.find?_eq_none.mp hraw m hm
          have he := List.find?_eq_none.mp hefi m hm
          exact ⟨by simpa using hr, by simpa using he⟩
      · have hmem := List.mem_of_find?_eq_some hefi
        have hp := List.find?_some hefi
        refine ⟨n2, hmem, by simp [hraw, hefi], ?_⟩
        refine Or.inr (Or.inl ⟨?_, hp⟩)
        intro m hm
        have hr := List.find?_eq_none.mp hraw m hm
        simpa using hr
    · have hmem := List.mem_of_find?_eq_some hraw
      have hp := List.find?_some hraw
      exact ⟨n1, hmem, by simp [hraw], Or.inl hp⟩
  · rfl

/-- Witness for C4 at a singleton name list. -/
theorem c4_primary_url_selection_witness :
    (∃ n ∈ ["a_1.efi"],
      choosePrimaryArtifactURL "B1" ["a_1.efi"] =
        "/update/" ++ pathEscape updatesArtifactsDirName ++ "/" ++ pathEscape "B1" ++ "/" ++
          pathEscape n ∧
      (goHasSuffix n ".nix-store.raw" = true ∨
       ((∀ m ∈ ["a_1.efi"], goHasSuffix m ".nix-store.raw" = false) ∧
         goHasSuffix n ".efi" = true) ∨
       ((∀ m ∈ ["a_1.efi"], goHasSuffix m ".nix-store.raw" = false ∧
           goHasSuffix m ".efi" = false) ∧ n = checksumManifestFileName) ∨
       ((∀ m ∈ ["a_1.efi"], goHasSuffix m ".nix-store.raw" = false ∧
           goHasSuffix m ".efi" = false ∧ m ≠ checksumManifestFileName) ∧
         ∀ m ∈ ["a_1.efi"], goStringLe n m = true))) ∧
    publishBuildArtifacts demoPrimaryResultEntries "B7" =
      .ok "/update/artifacts/B7/x_1.nix-store.raw" :=
  c4_primary_url_selection "B1" ["a_1.efi"] (by simp) (by simp)



/-! ## Installer artifact collection and publication -/

/-- Model of `isInstallerArtifactFileName`: case-insensitive `.iso` or
`.iso.zst` suffix on the trimmed name, nonempty and without a slash. -/
def isInstallerArtifactFileName (name : String) : Bool :=
  let normalized := goToLower (goTrimSpace name)
  !(normalized == "") && !(goContainsChar normalized (Char.ofNat 47)) &&
    (goHasSuffix normalized ".iso" || goHasSuffix normalized ".iso.zst")

/-- One filesystem object visited by `filepath.WalkDir` over the installer
result tree: its full path, its base name, and what `os.Stat` reports. -/
structure WalkEntry where
  path : String
  name : String
  isDir : Bool
  isRegular : Bool
  mode : Nat
  deriving Repr, DecidableEq

/-- Published artifact record (`publishedArtifact` in the source). -/
structure PublishedArtifact where
  name : String
  path : String
  mode : Nat
  deriving Repr, DecidableEq

/-- The duplicate-basename error message of `collectInstallerArtifacts`. -/
def dupInstallerMsg (name existing current : String) : String :=
  "duplicate installer artifact filename " ++ name ++ " found at " ++ existing ++
    " and " ++ current

/-- Whether the walk callback records this entry: not a directory, a
recognized installer artifact filename, and a regular file. -/
def installerEntryMatched (e : WalkEntry) : Bool :=
  !e.isDir && isInstallerArtifactFileName e.name && e.isRegular

/-- The (basename, path) pairs of the matched files of a walk. -/
def matchedNamePaths (walk : List WalkEntry) : List (String × String) :=
  (walk.filter installerEntryMatched).map fun e => (e.name, e.path)

/-- Model of the `filepath.WalkDir` callback loop of
`collectInstallerArtifacts`: `seen` maps each recorded basename to the path
it was first seen at; a second occurrence of a basename aborts the walk. -/
def collectInstallerLoop (seen : List (String × String))
    (acc : List PublishedArtifact) :
    List WalkEntry → Except String (List PublishedArtifact)
  | [] => .ok acc
  | e :: rest =>
    if e.isDir then collectInstallerLoop seen acc rest
    else if !isInstallerArtifactFileName e.name then collectInstallerLoop seen acc rest
    else if !e.isRegular then collectInstallerLoop seen acc rest
    else
      match seen.lookup e.name with
      | some existing => .error (dupInstallerMsg e.name existing e.path)
      | none =>
        collectInstallerLoop ((e.name, e.path) :: seen)
          (acc ++ [{ name := e.name, path := e.path, mode := e.mode }]) rest

/-- Insert into a list of artifacts sorted by name. -/
def insertArtifactSorted (x : PublishedArtifact) :
    List PublishedArtifact → List PublishedArtifact
  | [] => [x]
  | y :: ys =>
    if goStringLe x.name y.name then x :: y :: ys else y :: insertArtifactSorted x ys

/-- Model of the `sort.Slice` by name at the end of
`collectInstallerArtifacts` (basenames are unique, so the order is
determined). -/
def sortArtifactsByName : List PublishedArtifact → List PublishedArtifact
  | [] => []
  | x :: xs => insertArtifactSorted x (sortArtifactsByName xs)

/-- The resolved installer build result: a single regular file, a directory
(given as its `WalkDir` entry sequence), or anything else. -/
inductive InstallerResult where
  | file (e : WalkEntry)
  | dir (walk : List WalkEntry)
  | other
  deriving Repr, DecidableEq

/-- Model of `collectInstallerArtifacts`. -/
def collectInstallerArtifacts : InstallerResult → Except String (List PublishedArtifact)
  | .file e =>
    if isInstallerArtifactFileName e.name then
      .ok [{ name := e.name, path := e.path, mode := e.mode }]
    else .error "installer build result is not an ISO artifact"
  | .other => .error "installer build result is neither a file nor directory"
  | .dir walk =>
    match collectInstallerLoop [] [] walk with
    | .error e => .error ("failed to collect installer artifacts: " ++ e)
    | .ok artifacts =>
      if artifacts = [] then .error "installer build produced no ISO artifacts"
      else .ok (sortArtifactsByName artifacts)

/-- Model of `choosePrimaryInstallerArtifactURL`. -/
def choosePrimaryInstallerArtifactURL (buildID : String) (artifactNames : List String) :
    String :=
  let pfx := "/update/" ++ pathEscape updatesArtifactsDirName ++ "/" ++ pathEscape buildID ++
    "/" ++ pathEscape installerArtifactsDirName ++ "/"
  match artifactNames.find? (fun n => goHasSuffix (goToLower n) ".iso") with
  | some n => pfx ++ pathEscape n
  | none => pfx ++ pathEscape (artifactNames.headD "")

/-- Model of `publishBuildInstallerArtifact`: returns the list of file
copies performed (source path, destination basename) together with the
result.  The copies happen only after `collectInstallerArtifacts` has
succeeded, so a collection error leaves the destination directory empty. -/
def publishBuildInstallerArtifact (result : InstallerResult) (buildID : String) :
    List (String × String) × Except String String :=
  let bid := goTrimSpace buildID
  if bid = "" then ([], .error "build ID is required")
  else
    match collectInstallerArtifacts result with
    | .error e => ([], .error e)
    | .ok artifacts =>
      let copies := artifacts.map fun a => (a.path, a.name)
      let artifactNames := artifacts.map (·.name)
      if artifactNames = [] then (copies, .error "installer build produced no artifacts")
      else (copies, .ok (choosePrimaryInstallerArtifactURL bid (sortStrings artifactNames)))

theorem lookup_some_mem (a b : String) (l : List (String × String))
    (h : l.lookup a = some b) : (a, b) ∈ l := by
  induction l with
  | nil => simp [List.lookup] at h
  | cons kv rest ih =>
    rw [List.lookup] at h
    split at h
    · cases h
      have : a = kv.1 := by
        rename_i heq
        exact beq_iff_eq.mp heq
      rw [this]
      exact List.mem_cons_self _ _
    · exact List.mem_cons_of_mem _ (ih h)

theorem lookup_none_not_key (a : String) (l : List (String × String))
    (h : l.lookup a = none) : a ∉ l.map (·.1) := by
  induction l with
  | nil => simp
  | cons kv rest ih =>
    rw [List.lookup] at h
    split at h
    · cases h
    · rename_i hne
      simp only [List.map_cons, List.mem_cons]
      intro hcon
      rcases hcon with hcon | hcon
      · rw [hcon] at hne
        simp at hne
      · exact ih h hcon


theorem collectInstallerLoop_skip (e : WalkEntry) (rest : List WalkEntry)
    (seen : List (String × String)) (acc : List PublishedArtifact)
    (h : installerEntryMatched e = false) :
    collectInstallerLoop seen acc (e :: rest) = collectInstallerLoop seen acc rest := by
  unfold installerEntryMatched at h
  conv_lhs => rw [collectInstallerLoop]
  by_cases hd : e.isDir = true
  · simp [hd]
  · simp only [Bool.not_eq_true] at hd
    rw [hd] at h
    simp only [Bool.not_false, Bool.true_and] at h
    cases hn : isInstallerArtifactFileName e.name
    · simp [hd, hn]
    · rw [hn] at h
      simp only [Bool.true_and] at h
      simp [hd, hn, h]

theorem matchedNamePaths_cons_skip (e : WalkEntry) (rest : List WalkEntry)
    (h : installerEntryMatched e = false) :
    matchedNamePaths (e :: rest) = matchedNamePaths rest := by
  simp [matchedNamePaths, List.filter_cons, h]

theorem matchedNamePaths_cons_matched (e : WalkEntry) (rest : List WalkEntry)
    (h : installerEntryMatched e = true) :
    matchedNamePaths (e :: rest) = (e.name, e.path) :: matchedNamePaths rest := by
  simp [matchedNamePaths, List.filter_cons, h]

theorem collectInstallerLoop_cons_matched (e : WalkEntry) (rest : List WalkEntry)
    (seen : List (String × String)) (acc : List PublishedArtifact)
    (hd : e.isDir = false) (hnm : isInstallerArtifactFileName e.name = true)
    (hr : e.isRegular = true) :
    collectInstallerLoop seen acc (e :: rest) =
      match seen.lookup e.name with
      | some existing => .error (dupInstallerMsg e.name existing e.path)
      | none =>
        collectInstallerLoop ((e.name, e.path) :: seen)
          (acc ++ [{ name := e.name, path := e.path, mode := e.mode }]) rest := by
  conv_lhs => rw [collectInstallerLoop]
  simp [hd, hnm, hr]

theorem collectInstallerLoop_dup (walk : List WalkEntry) :
    ∀ (seen : List (String × String)) (acc : List PublishedArtifact),
      (seen.map (·.1)).Nodup →
      (seen.map (·.2) ++ (matchedNamePaths walk).map (·.2)).Nodup →
      ¬ (seen.map (·.1) ++ (matchedNamePaths walk).map (·.1)).Nodup →
      ∃ n p q, collectInstallerLoop seen acc walk = .error (dupInstallerMsg n p q) ∧
        p ≠ q ∧
        ((n, p) ∈ seen ∨ (n, p) ∈ matchedNamePaths walk) ∧
        (n, q) ∈ matchedNamePaths walk := by
  induction walk with
  | nil =>
    intro seen acc hseen hpaths hdup
    exact absurd (by simpa [matchedNamePaths] using hseen) hdup
  | cons e rest ih =>
    intro seen acc hseen hpaths hdup
    by_cases hm : installerEntryMatched e = true
    case neg =>
      have hm2 : installerEntryMatched e = false := by
        simpa using hm
      rw [matchedNamePaths_cons_skip e rest hm2] at hpaths hdup
      rw [collectInstallerLoop_skip e rest seen acc hm2,
        matchedNamePaths_cons_skip e rest hm2]
      exact ih seen acc hseen hpaths hdup
    case pos =>
      have hd : e.isDir = false := by
        unfold installerEntryMatched at hm
        cases hcon : e.isDir
        · rfl
        · rw [hcon] at hm; simp at hm
      have hnm : isInstallerArtifactFileName e.name = true := by
        unfold installerEntryMatched at hm
        rw [hd] at hm
        simp only [Bool.not_false, Bool.true_and, Bool.and_eq_true] at hm
        exact hm.1
      have hr : e.isRegular = true := by
        unfold installerEntryMatched at hm
        rw [hd, hnm] at hm
        simpa using hm
      rw [matchedNamePaths_cons_matched e rest hm] at hpaths hdup
      rw [matchedNamePaths_cons_matched e rest hm]
      cases hlk : seen.lookup e.name with
      | some existing =>
        refine ⟨e.name, existing, e.path, ?_, ?_, ?_, ?_⟩
        · rw [collectInstallerLoop_cons_matched e rest seen acc hd hnm hr, hlk]
        · obtain ⟨hn1, hn2, hdisj⟩ := List.nodup_append.mp hpaths
          intro hcon
          apply hdisj (List.mem_map_of_mem (·.2) (lookup_some_mem e.name existing seen hlk))
          rw [hcon]
          simp
        · exact Or.inl (lookup_some_mem e.name existing seen hlk)
        · exact List.mem_cons_self _ _
      | none =>
        have hkey : e.name ∉ seen.map (·.1) := lookup_none_not_key e.name seen hlk
        have hperm1 : (seen.map (·.2) ++ e.path :: (matchedNamePaths rest).map (·.2)).Perm
            (((e.name, e.path) :: seen).map (·.2) ++ (matchedNamePaths rest).map (·.2)) := by
          simp only [List.map_cons]
          exact List.perm_middle
        have hperm2 : (seen.map (·.1) ++ e.name :: (matchedNamePaths rest).map (·.1)).Perm
            (((e.name, e.path) :: seen).map (·.1) ++ (matchedNamePaths rest).map (·.1)) := by
          simp only [List.map_cons]
          exact List.perm_middle
        have hseen2 : (((e.name, e.path) :: seen).map (·.1)).Nodup := by
          simpa using List.nodup_cons.mpr ⟨hkey, hseen⟩
        have hpaths2 := hperm1.nodup_iff.mp hpaths
        have hdup2 : ¬ ((((e.name, e.path) :: seen).map (·.1) ++
            (matchedNamePaths rest).map (·.1)).Nodup) := by
          intro hcon
          exact hdup (hperm2.nodup_iff.mpr hcon)
        obtain ⟨n, p, q, herr, hpq, hp, hq⟩ :=
          ih ((e.name, e.path) :: seen)
            (acc ++ [{ name := e.name, path := e.path, mode := e.mode }]) hseen2 hpaths2 hdup2
        refine ⟨n, p, q, ?_, hpq, ?_, List.mem_cons_of_mem _ hq⟩
        · rw [collectInstallerLoop_cons_matched e rest seen acc hd hnm hr, hlk]
          exact herr
        · rcases hp with hp | hp
          · rcases List.mem_cons.mp hp with hp | hp
            · exact Or.inr (by rw [hp]; exact List.mem_cons_self _ _)
            · exact Or.inl hp
          · exact Or.inr (List.mem_cons_of_mem _ hp)

/-- Installer result walk of the C5 scenario: `a/installer.iso` and
`b/installer.iso` in one tree. -/
def demoInstallerWalk : List WalkEntry :=
  [{ path := "result", name := "result", isDir := true, isRegular := false, mode := 0 },
   { path := "a", name := "a", isDir := true, isRegular := false, mode := 0 },
   { path := "a/installer.iso", name := "installer.iso", isDir := false,
     isRegular := true, mode := 420 },
   { path := "b", name := "b", isDir := true, isRegular := false, mode := 0 },
   { path := "b/installer.iso", name := "installer.iso", isDir := false,
     isRegular := true, mode := 420 }]

/-- C5: when the installer result tree contains two recognized installer
artifact files with the same basename at different paths, publication fails
with an error naming two source paths of a duplicated basename, and zero
files are copied to the per-build installer destination; concretely, a tree
with `a/installer.iso` and `b/installer.iso` produces exactly that error and
an empty copy list. -/
theorem c5_duplicate_installer_basename :
    (∀ (walk : List WalkEntry) (buildID : String),
      ((matchedNamePaths walk).map (·.2)).Nodup →
      ¬ ((matchedNamePaths walk).map (·.1)).Nodup →
      goTrimSpace buildID ≠ "" →
      ∃ n p q, p ≠ q ∧ (n, p) ∈ matchedNamePaths walk ∧ (n, q) ∈ matchedNamePaths walk ∧
        publishBuildInstallerArtifact (InstallerResult.dir walk) buildID =
          ([], .error ("failed to collect installer artifacts: " ++ dupInstallerMsg n p q))) ∧
    publishBuildInstallerArtifact (InstallerResult.dir demoInstallerWalk) "B9" =
      ([], .error ("failed to collect installer artifacts: " ++
        "duplicate installer artifact filename installer.iso found at a/installer.iso and b/installer.iso")) := by
  constructor
  · intro walk buildID hpaths hdup hbid
    obtain ⟨n, p, q, herr, hpq, hp, hq⟩ :=
      collectInstallerLoop_dup walk [] [] (by simp) (by simpa using hpaths)
        (by simpa using hdup)
    simp only [List.not_mem_nil, false_or] at hp
    refine ⟨n, p, q, hpq, hp, hq, ?_⟩
    have hcollect : collectInstallerArtifacts (InstallerResult.dir walk) =
        .error ("failed to collect installer artifacts: " ++ dupInstallerMsg n p q) := by
      conv_lhs => rw [collectInstallerArtifacts]
      rw [herr]
    unfold publishBuildInstallerArtifact
    dsimp only
    rw [if_neg hbid, hcollect]
  · rfl

/-- Witness for C5: the general statement applied to the concrete tree. -/
theorem c5_duplicate_installer_basename_witness :
    ∃ n p q, p ≠ q ∧ (n, p) ∈ matchedNamePaths demoInstallerWalk ∧
      (n, q) ∈ matchedNamePaths demoInstallerWalk ∧
      publishBuildInstallerArtifact (InstallerResult.dir demoInstallerWalk) "B9" =
        ([], .error ("failed to collect installer artifacts: " ++ dupInstallerMsg n p q)) :=
  c5_duplicate_installer_basename.1 demoInstallerWalk "B9" (by decide) (by decide) (by decide)


/-! ## Fleet activation (`activateFleetReleaseArtifacts`) -/

/-- Two consecutive dots anywhere in the character list (model of
Go's `strings.Contains(s, "..")`). -/
def containsDotDot : List Char → Bool
  | [] => false
  | [_] => false
  | a :: b :: rest => (a = '.' && b = '.') || containsDotDot (b :: rest)

/-- Character class `[A-Za-z0-9-]` of the `safeUpdatePathSegmentPattern`
regular expression. -/
def safeSegmentChar (c : Char) : Bool :=
  ('A' ≤ c && c ≤ 'Z') || ('a' ≤ c && c ≤ 'z') || ('0' ≤ c && c ≤ '9') || c = '-'

/-- Model of `isSafeUpdatePathSegment`: trimmed, nonempty, no slash or
backslash, no `..`, and matching `^[A-Za-z0-9-]+$`. -/
def isSafeUpdatePathSegment (value : String) : Bool :=
  let trimmed := goTrimSpace value
  !(trimmed == "") &&
    !(goContainsChar trimmed (Char.ofNat 47)) && !(goContainsChar trimmed (Char.ofNat 92)) &&
    !(containsDotDot trimmed.data) &&
    (!(trimmed.data == []) && trimmed.data.all safeSegmentChar)

/-- Model of `collectPublishedArtifacts`: read the per-build artifact
directory (absent directory is the "build artifacts not found" error),
keep the update artifacts, require at least one, and sort by name. -/
def collectPublishedArtifacts (directoryPath : String)
    (buildDir : Option (List DirEntry)) : Except String (List PublishedArtifact) :=
  match buildDir with
  | none => .error "build artifacts not found"
  | some entries =>
    let artifacts := (entries.filter publishedEntryOK).map fun e =>
      { name := e.name, path := directoryPath ++ "/" ++ e.name, mode := e.mode :
        PublishedArtifact }
    if artifacts = [] then .error "build artifacts directory contains no update artifacts"
    else .ok (sortArtifactsByName artifacts)

/-- The staged copy of one artifact: the source mode, with the `0644`
default substituted when the source reports no mode bits. -/
def stagedArtifact (a : PublishedArtifact) : PublishedArtifact :=
  { a with mode := if a.mode = 0 then 420 else a.mode }

/-- The staging loop of `activateFleetReleaseArtifacts`: copy each artifact
into the temporary fleet directory in order; `copyOk i` tells whether the
i-th copy succeeds; the first failure aborts with the staging error naming
the artifact. -/
def stageArtifacts (copyOk : Nat → Bool) : List PublishedArtifact → Nat →
    Except String (List PublishedArtifact)
  | [], _ => .ok []
  | a :: rest, i =>
    if copyOk i then
      match stageArtifacts copyOk rest (i + 1) with
      | .ok staged => .ok (stagedArtifact a :: staged)
      | .error e => .error e
    else .error ("failed to stage artifact " ++ a.name ++ " for fleet rollout")

/-- The fleet directory state the activation touches: the live directory
contents and the temporary staging directory (`none` when absent). -/
structure FleetDirState where
  live : Option (List PublishedArtifact)
  temp : Option (List PublishedArtifact)
  deriving Repr, DecidableEq

/-- Model of `activateFleetReleaseArtifacts`: validate both identifiers,
collect the build's published artifacts, stage all of them into a fresh
temporary sibling directory, and only if every copy succeeded remove the
live directory and rename the staged directory into place; any earlier
failure removes the temporary directory and leaves the live directory
untouched. -/
def activateFleetReleaseArtifacts (updatesDirPath fleetID buildID : String)
    (buildDir : Option (List DirEntry)) (copyOk : Nat → Bool)
    (live : Option (List PublishedArtifact)) :
    FleetDirState × Except String Unit :=
  let fleetID := goTrimSpace fleetID
  let buildID := goTrimSpace buildID
  if !isSafeUpdatePathSegment fleetID then
    ({ live := live, temp := none }, .error "invalid fleet identifier")
  else if !isSafeUpdatePathSegment buildID then
    ({ live := live, temp := none }, .error "invalid build identifier")
  else
    match collectPublishedArtifacts
        (updatesDirPath ++ "/" ++ updatesArtifactsDirName ++ "/" ++ buildID) buildDir with
    | .error e => ({ live := live, temp := none }, .error e)
    | .ok artifacts =>
      match stageArtifacts copyOk artifacts 0 with
      | .error e => ({ live := live, temp := none }, .error e)
      | .ok staged => ({ live := some staged, temp := none }, .ok ())

theorem stageArtifacts_all_ok (copyOk : Nat → Bool) (arts : List PublishedArtifact) :
    ∀ i0 : Nat, (∀ j : Nat, j < arts.length → copyOk (i0 + j) = true) →
      stageArtifacts copyOk arts i0 = .ok (arts.map stagedArtifact) := by
  induction arts with
  | nil => intro i0 _; rfl
  | cons a rest ih =>
    intro i0 h
    have h0 : copyOk i0 = true := by
      have := h 0 (by simp)
      simpa using this
    have hrest := ih (i0 + 1) fun j hj => by
      have := h (j + 1) (by simpa using Nat.succ_lt_succ hj)
      rwa [show i0 + (j + 1) = i0 + 1 + j by omega] at this
    unfold stageArtifacts
    rw [if_pos h0, hrest]
    rfl

theorem stageArtifacts_fail (copyOk : Nat → Bool) (arts : List PublishedArtifact) :
    ∀ i0 : Nat, (∃ j : Nat, j < arts.length ∧ copyOk (i0 + j) = false) →
      ∃ e, stageArtifacts copyOk arts i0 = .error e := by
  induction arts with
  | nil =>
    intro i0 h
    obtain ⟨j, hj, _⟩ := h
    simp at hj
  | cons a rest ih =>
    intro i0 h
    cases h0 : copyOk i0 with
    | false =>
      refine ⟨"failed to stage artifact " ++ a.name ++ " for fleet rollout", ?_⟩
      unfold stageArtifacts
      rw [if_neg (by simp [h0])]
    | true =>
      obtain ⟨j, hj, hfail⟩ := h
      cases j with
      | zero => rw [show i0 + 0 = i0 by omega] at hfail; rw [h0] at hfail; cases hfail
      | succ j =>
        obtain ⟨e, he⟩ := ih (i0 + 1)
          ⟨j, by simpa using Nat.lt_of_succ_lt_succ hj,
            by rwa [show i0 + 1 + j = i0 + (j + 1) by omega]⟩
        refine ⟨e, ?_⟩
        unfold stageArtifacts
        rw [if_pos h0, he]


/-- C6: fleet activation validates both identifiers first, and is atomic
with respect to staging failure: an unsafe identifier or a collection error
changes nothing; a failed staging copy leaves the previous live directory
unchanged with the temporary directory removed; and only when every
artifact stages successfully is the live directory replaced by the staged
set. -/
theorem c6_fleet_activation_atomic (updatesDirPath fleetID buildID : String)
    (buildDir : Option (List DirEntry)) (copyOk : Nat → Bool)
    (live : Option (List PublishedArtifact)) :
    (isSafeUpdatePathSegment (goTrimSpace fleetID) = false →
      activateFleetReleaseArtifacts updatesDirPath fleetID buildID buildDir copyOk live =
        ({ live := live, temp := none }, .error "invalid fleet identifier")) ∧
    (isSafeUpdatePathSegment (goTrimSpace fleetID) = true →
      isSafeUpdatePathSegment (goTrimSpace buildID) = false →
      activateFleetReleaseArtifacts updatesDirPath fleetID buildID buildDir copyOk live =
        ({ live := live, temp := none }, .error "invalid build identifier")) ∧
    (∀ e : String, isSafeUpdatePathSegment (goTrimSpace fleetID) = true →
      isSafeUpdatePathSegment (goTrimSpace buildID) = true →
      collectPublishedArtifacts
        (updatesDirPath ++ "/" ++ updatesArtifactsDirName ++ "/" ++ goTrimSpace buildID)
        buildDir = .error e →
      activateFleetReleaseArtifacts updatesDirPath fleetID buildID buildDir copyOk live =
        ({ live := live, temp := none }, .error e)) ∧
    (∀ artifacts : List PublishedArtifact,
      isSafeUpdatePathSegment (goTrimSpace fleetID) = true →
      isSafeUpdatePathSegment (goTrimSpace buildID) = true →
      collectPublishedArtifacts
        (updatesDirPath ++ "/" ++ updatesArtifactsDirName ++ "/" ++ goTrimSpace buildID)
        buildDir = .ok artifacts →
      (∃ j : Nat, j < artifacts.length ∧ copyOk j = false) →
      (activateFleetReleaseArtifacts updatesDirPath fleetID buildID buildDir
          copyOk live).1.live = live ∧
      (activateFleetReleaseArtifacts updatesDirPath fleetID buildID buildDir
          copyOk live).1.temp = none ∧
      ∃ e, (activateFleetReleaseArtifacts updatesDirPath fleetID buildID buildDir
          copyOk live).2 = .error e) ∧
    (∀ artifacts : List PublishedArtifact,
      isSafeUpdatePathSegment (goTrimSpace fleetID) = true →
      isSafeUpdatePathSegment (goTrimSpace buildID) = true →
      collectPublishedArtifacts
        (updatesDirPath ++ "/" ++ updatesArtifactsDirName ++ "/" ++ goTrimSpace buildID)
        buildDir = .ok artifacts →
      (∀ j : Nat, j < artifacts.length → copyOk j = true) →
      activateFleetReleaseArtifacts updatesDirPath fleetID buildID buildDir copyOk live =
        ({ live := some (artifacts.map stagedArtifact), temp := none }, .ok ())) := by
  refine ⟨?_, ?_, ?_, ?_, ?_⟩
  · intro hf
    unfold activateFleetReleaseArtifacts
    dsimp only
    rw [if_pos (by simp [hf])]
  · intro hf hb
    unfold activateFleetReleaseArtifacts
    dsimp only
    rw [if_neg (by simp [hf]), if_pos (by simp [hb])]
  · intro e hf hb hc
    unfold activateFleetReleaseArtifacts
    dsimp only
    rw [if_neg (by simp [hf]), if_neg (by simp [hb]), hc]
  · intro artifacts hf hb hc hfail
    obtain ⟨e, he⟩ := stageArtifacts_fail copyOk artifacts 0 (by simpa using hfail)
    unfold activateFleetReleaseArtifacts
    dsimp only
    rw [if_neg (by simp [hf]), if_neg (by simp [hb]), hc]
    dsimp only
    rw [he]
    exact ⟨rfl, rfl, e, rfl⟩
  · intro artifacts hf hb hc hok
    have hstage := stageArtifacts_all_ok copyOk artifacts 0 (by simpa using hok)
    unfold activateFleetReleaseArtifacts
    dsimp only
    rw [if_neg (by simp [hf]), if_neg (by simp [hb]), hc]
    dsimp only
    rw [hstage]

/-- Witness for C6: a successful activation of a one-artifact build replaces
the live set, and a failing copy leaves the previous live set in place. -/
theorem c6_fleet_activation_atomic_witness :
    activateFleetReleaseArtifacts "updates" "fleet-a" "b1"
        (some [{ name := "a_1.efi", isDir := false, isRegular := true, mode := 420 }])
        (fun _ => true) (some []) =
      ({ live := some [{ name := "a_1.efi", path := "updates/artifacts/b1/a_1.efi",
                         mode := 420 }], temp := none }, .ok ()) ∧
    (activateFleetReleaseArtifacts "updates" "fleet-a" "b1"
        (some [{ name := "a_1.efi", isDir := false, isRegular := true, mode := 420 }])
        (fun _ => false) (some [])).1.live = some [] :=
  ⟨(c6_fleet_activation_atomic "updates" "fleet-a" "b1"
      (some [{ name := "a_1.efi", isDir := false, isRegular := true, mode := 420 }])
      (fun _ => true) (some [])).2.2.2.2
    [{ name := "a_1.efi", path := "updates/artifacts/b1/a_1.efi", mode := 420 }]
    (by decide) (by decide) rfl (fun j hj => rfl),
   ((c6_fleet_activation_atomic "updates" "fleet-a" "b1"
      (some [{ name := "a_1.efi", isDir := false, isRegular := true, mode := 420 }])
      (fun _ => false) (some [])).2.2.2.1
    [{ name := "a_1.efi", path := "updates/artifacts/b1/a_1.efi", mode := 420 }]
    (by decide) (by decide) rfl ⟨0, by decide, rfl⟩).1⟩


/-! ## Incremental build log endpoint (`BuildLogLive`, `parseAfterID`) -/

/-- One row of `build_log_chunks` for a build. -/
structure BuildLogChunk where
  id : Int
  content : String
  deriving Repr, DecidableEq

def buildLogBatchLimit : Nat := 256

/-- Model of `db.ListBuildLogChunksSince` for one build: negative cursors are
clamped to 0, the limit falls back to 128 when non-positive and is capped at
512, and the rows (held in ascending ID order, as `ORDER BY id ASC` returns
them) are filtered to IDs above the cursor and truncated to the limit. -/
def ListBuildLogChunksSince (store : List BuildLogChunk) (afterID : Int) (limit : Int) :
    List BuildLogChunk :=
  let afterID := if afterID < 0 then 0 else afterID
  let limit := if limit ≤ 0 then 128 else limit
  let limit := if 512 < limit then 512 else limit
  (store.filter fun c => afterID < c.id).take limit.toNat

/-- Model of Go's `strconv.ParseInt(s, 10, 64)`: an optional sign, at least
one decimal digit, nothing else, and the value within the int64 range. -/
def goParseInt64 (s : String) : Option Int :=
  match s.data with
  | [] => none
  | c :: rest =>
    let signDigits : Bool × List Char :=
      if c = '-' then (true, rest)
      else if c = '+' then (false, rest) else (false, c :: rest)
    let neg := signDigits.1
    let digits := signDigits.2
    if digits = [] then none
    else if !(digits.all fun d => '0' ≤ d && d ≤ '9') then none
    else
      let mag : Nat := digits.foldl (fun acc d => acc * 10 + (d.toNat - 48)) 0
      let v : Int := if neg then -(mag : Int) else (mag : Int)
      if v < -(2 ^ 63 : Int) ∨ (2 ^ 63 - 1 : Int) < v then none else some v

/-- Model of `parseAfterID`: blank input is cursor 0; a non-integer or a
negative integer is an error. -/
def parseAfterID (raw : String) : Except Unit Int :=
  let trimmed := goTrimSpace raw
  if trimmed = "" then .ok 0
  else
    match goParseInt64 trimmed with
    | none => .error ()
    | some value => if value < 0 then .error () else .ok value

/-- Model of `isTerminalBuildStatus`. -/
def isTerminalBuildStatus (status : String) : Bool :=
  status == BuildStatusSucceeded || status == BuildStatusFailed

/-- The JSON payload of the live log endpoint. -/
structure BuildLogLiveResponse where
  status : String
  chunk : String
  nextAfter : Int
  done : Bool
  deriving Repr, DecidableEq

/-- An HTTP reply of the live log endpoint. -/
inductive LiveLogReply where
  | notFound
  | badRequest
  | ok (payload : BuildLogLiveResponse)
  deriving Repr, DecidableEq

/-- The `nextAfter` cursor computed by the handler loop: the ID of the last
chunk delivered, or the incoming cursor when none were. -/
def lastChunkID (l : List BuildLogChunk) (a : Int) : Int :=
  l.foldl (fun _ c => c.id) a

/-- Model of the `BuildLogLive` handler: empty build ID is 404, a bad cursor
is 400, a missing build is 404; otherwise fetch one chunk more than the
batch limit, deliver at most the batch limit, advance the cursor, and set
`done` exactly when the status is terminal and no further chunk remained. -/
def BuildLogLive (buildIDRaw afterRaw : String) (build : Option String)
    (store : List BuildLogChunk) : LiveLogReply :=
  if goTrimSpace buildIDRaw = "" then .notFound
  else
    match parseAfterID afterRaw with
    | .error _ => .badRequest
    | .ok afterID =>
      match build with
      | none => .notFound
      | some status =>
        let fetched := ListBuildLogChunksSince store afterID ((buildLogBatchLimit : Int) + 1)
        let hasMore : Bool := decide (buildLogBatchLimit < fetched.length)
        let chunks := fetched.take buildLogBatchLimit
        .ok { status := status,
              chunk := String.join (chunks.map (·.content)),
              nextAfter := lastChunkID chunks afterID,
              done := isTerminalBuildStatus status && !hasMore }

theorem parseAfterID_nonneg (raw : String) (v : Int) (h : parseAfterID raw = .ok v) :
    0 ≤ v := by
  unfold parseAfterID at h
  dsimp only at h
  split at h
  · cases h; omega
  · split at h
    · cases h
    · split at h
      · cases h
      · cases h
        omega


theorem lastChunkID_cons (d : BuildLogChunk) (t : List BuildLogChunk) (a : Int) :
    lastChunkID (d :: t) a = lastChunkID t d.id := rfl

theorem lastChunkID_bounds (l : List BuildLogChunk) :
    ∀ a : Int, l.Pairwise (fun x y => x.id < y.id) → (∀ c ∈ l, a < c.id) →
      a ≤ lastChunkID l a ∧ ∀ c ∈ l, c.id ≤ lastChunkID l a := by
  induction l with
  | nil => intro a _ _; exact ⟨le_refl a, by simp⟩
  | cons d t ih =>
    intro a hs hgt
    have hpc := List.pairwise_cons.mp hs
    obtain ⟨h1, h2⟩ := ih d.id hpc.2 hpc.1
    rw [lastChunkID_cons]
    refine ⟨?_, ?_⟩
    · exact le_trans (le_of_lt (hgt d (List.mem_cons_self d t))) h1
    · intro c hc
      rcases List.mem_cons.mp hc with hc | hc
      · rw [hc]; exact h1
      · exact h2 c hc

theorem lastChunkID_mem (l : List BuildLogChunk) :
    ∀ a : Int, l ≠ [] → ∃ c ∈ l, lastChunkID l a = c.id := by
  induction l with
  | nil => intro a h; exact absurd rfl h
  | cons d t ih =>
    intro a _
    cases t with
    | nil => exact ⟨d, List.mem_cons_self d [], rfl⟩
    | cons e t2 =>
      obtain ⟨c, hc, heq⟩ := ih d.id (by simp)
      exact ⟨c, List.mem_cons_of_mem d hc, heq⟩

theorem listChunksSince_eval (store : List BuildLogChunk) (a : Int) (hA : 0 ≤ a) :
    ListBuildLogChunksSince store a ((buildLogBatchLimit : Int) + 1) =
      (store.filter fun c => a < c.id).take (buildLogBatchLimit + 1) := by
  unfold ListBuildLogChunksSince buildLogBatchLimit
  dsimp only
  rw [if_neg (show ¬(a < 0) by omega)]
  norm_num
  rfl


/-- C7: a live-log response has `done = true` exactly when the build status
is terminal and no chunk with a sequence ID above the delivered cursor
remains in the store. -/
theorem c7_done_flag (buildIDRaw afterRaw status : String) (store : List BuildLogChunk)
    (payload : BuildLogLiveResponse)
    (hsorted : store.Pairwise (fun x y => x.id < y.id))
    (hreply : BuildLogLive buildIDRaw afterRaw (some status) store = .ok payload) :
    payload.done = true ↔
      (isTerminalBuildStatus status = true ∧
        store.filter (fun c => payload.nextAfter < c.id) = []) := by
  unfold BuildLogLive at hreply
  by_cases hb : goTrimSpace buildIDRaw = ""
  · rw [if_pos hb] at hreply
    exact absurd hreply (by simp)
  · rw [if_neg hb] at hreply
    cases hpa : parseAfterID afterRaw with
    | error u =>
      rw [hpa] at hreply
      exact absurd hreply (by simp)
    | ok afterID =>
      rw [hpa] at hreply
      have hA : 0 ≤ afterID := parseAfterID_nonneg afterRaw afterID hpa
      dsimp only at hreply
      rw [listChunksSince_eval store afterID hA] at hreply
      cases hreply
      dsimp only
      rw [List.take_take]
      have hmin : min buildLogBatchLimit (buildLogBatchLimit + 1) = buildLogBatchLimit := by
        omega
      rw [hmin]
      set F := store.filter (fun c => decide (afterID < c.id)) with hF
      have hFs : F.Pairwise (fun x y => x.id < y.id) := List.Pairwise.filter _ hsorted
      have hFgt : ∀ c ∈ F, afterID < c.id := by
        intro c hc
        have := List.of_mem_filter hc
        exact of_decide_eq_true this
      by_cases hlen : F.length ≤ buildLogBatchLimit
      · have htake1 : F.take (buildLogBatchLimit + 1) = F :=
          List.take_of_length_le (by omega)
        have htake2 : F.take buildLogBatchLimit = F := List.take_of_length_le hlen
        rw [htake1, htake2]
        have hnomore : decide (buildLogBatchLimit < F.length) = false := by
          simp [Nat.not_lt.mpr hlen]
        rw [hnomore]
        obtain ⟨hge, hub⟩ := lastChunkID_bounds F afterID hFs hFgt
        have hempty : store.filter (fun c => lastChunkID F afterID < c.id) = [] := by
          rw [List.filter_eq_nil_iff]
          intro c hc
          simp only [decide_eq_true_eq]
          intro hcon
          have hcF : c ∈ F := by
            rw [hF]
            exact List.mem_filter_of_mem hc (decide_eq_true (by omega))
          exact absurd (hub c hcF) (by omega)
        rw [hempty]
        simp
      · push_neg at hlen
        have hmore : decide (buildLogBatchLimit < (F.take (buildLogBatchLimit + 1)).length) =
            true := by
          rw [List.length_take]
          simp only [decide_eq_true_eq]
          omega
        rw [hmore]
        have hidx : buildLogBatchLimit < F.length := hlen
        have hxmem : F[buildLogBatchLimit] ∈ F := List.getElem_mem hidx
        have hxstore : F[buildLogBatchLimit] ∈ store := List.mem_of_mem_filter hxmem
        have htlen : (F.take buildLogBatchLimit).length = buildLogBatchLimit := by
          rw [List.length_take]
          omega
        have htne : F.take buildLogBatchLimit ≠ [] := by
          intro hcon
          rw [hcon] at htlen
          simp [buildLogBatchLimit] at htlen
        obtain ⟨c, hcmem, hceq⟩ := lastChunkID_mem (F.take buildLogBatchLimit) afterID htne
        have hxdrop : F[buildLogBatchLimit] ∈ F.drop buildLogBatchLimit := by
          rw [List.drop_eq_getElem_cons hidx]
          exact List.mem_cons_self _ _
        have hcross : c.id < (F[buildLogBatchLimit]).id := by
          have hsplit := hFs
          rw [← List.take_append_drop buildLogBatchLimit F] at hsplit
          obtain ⟨_, _, hcr⟩ := List.pairwise_append.mp hsplit
          exact hcr c hcmem _ hxdrop
        have hmem2 : F[buildLogBatchLimit] ∈
            store.filter (fun c => lastChunkID (F.take buildLogBatchLimit) afterID < c.id) := by
          refine List.mem_filter_of_mem hxstore (decide_eq_true ?_)
          rw [hceq]
          exact hcross
        constructor
        · intro hcon
          simp at hcon
        · intro ⟨_, hfil⟩
          rw [hfil] at hmem2
          simp at hmem2


/-- The live-log payload of the C7 witness scenario. -/
def c7DemoPayload : BuildLogLiveResponse :=
  { status := BuildStatusSucceeded, chunk := "a", nextAfter := 1, done := true }

/-- Witness for C7 at a one-chunk store of a succeeded build. -/
theorem c7_done_flag_witness :
    c7DemoPayload.done = true ↔
      (isTerminalBuildStatus BuildStatusSucceeded = true ∧
        [({ id := 1, content := "a" } : BuildLogChunk)].filter
          (fun c => c7DemoPayload.nextAfter < c.id) = []) :=
  c7_done_flag "b1" "" BuildStatusSucceeded [{ id := 1, content := "a" }]
    c7DemoPayload (by simp) rfl

/-! ## C8: handling of the after cursor -/

/-- Counterexample for C8 as stated: an invalid `after` value (negative or
non-integer) is not treated as cursor 0 — `parseAfterID` rejects it and the
endpoint answers 400 Bad Request instead of a log payload. -/
theorem c8_invalid_after_not_cursor_zero :
    parseAfterID "-1" = .error () ∧ parseAfterID "abc" = .error () ∧
    BuildLogLive "b1" "-1" (some BuildStatusRunning) [] = .badRequest ∧
    BuildLogLive "b1" "-1" (some BuildStatusRunning) [] ≠
      .ok { status := BuildStatusRunning, chunk := "", nextAfter := 0, done := false } := by
  refine ⟨rfl, rfl, rfl, ?_⟩
  intro h
  exact LiveLogReply.noConfusion h

/-- C8 (amended): a missing or blank `after` value is treated as cursor 0; a
non-integer or negative value is rejected with 400 Bad Request; for an
accepted cursor the endpoint returns the concatenation of the chunks after
that cursor, capped per call at the batch limit. -/
theorem c8_after_cursor_amended (buildIDRaw raw status : String)
    (store : List BuildLogChunk) (hbid : goTrimSpace buildIDRaw ≠ "") :
    (goTrimSpace raw = "" → parseAfterID raw = .ok 0) ∧
    (∀ v : Int, parseAfterID raw = .ok v → 0 ≤ v) ∧
    (parseAfterID raw = .error () →
      BuildLogLive buildIDRaw raw (some status) store = .badRequest) ∧
    (∀ afterID : Int, parseAfterID raw = .ok afterID →
      ∃ payload, BuildLogLive buildIDRaw raw (some status) store = .ok payload ∧
        payload.status = status ∧
        payload.chunk = String.join
          (((store.filter fun c => afterID < c.id).take buildLogBatchLimit).map
            (·.content))) := by
  refine ⟨?_, fun v => parseAfterID_nonneg raw v, ?_, ?_⟩
  · intro h
    unfold parseAfterID
    dsimp only
    rw [if_pos h]
  · intro he
    unfold BuildLogLive
    rw [if_neg hbid, he]
  · intro afterID hpa
    have hA : 0 ≤ afterID := parseAfterID_nonneg raw afterID hpa
    unfold BuildLogLive
    rw [if_neg hbid, hpa]
    dsimp only
    rw [listChunksSince_eval store afterID hA, List.take_take]
    have hmin : min buildLogBatchLimit (buildLogBatchLimit + 1) = buildLogBatchLimit := by
      omega
    rw [hmin]
    exact ⟨_, rfl, rfl, rfl⟩

/-- Witness for C8 (amended) at a two-chunk store with cursor 2. -/
theorem c8_after_cursor_amended_witness :
    ∃ payload, BuildLogLive "b1" "2" (some BuildStatusRunning)
        [{ id := 1, content := "x" }, { id := 3, content := "y" }] = .ok payload ∧
      payload.status = BuildStatusRunning ∧
      payload.chunk = String.join
        ((([({ id := 1, content := "x" } : BuildLogChunk),
            { id := 3, content := "y" }].filter fun c => (2 : Int) < c.id).take
          buildLogBatchLimit).map (·.content)) :=
  (c8_after_cursor_amended "b1" "2" BuildStatusRunning
    [{ id := 1, content := "x" }, { id := 3, content := "y" }]
    (by decide)).2.2.2 2 rfl


/-! ## Package expressions (`packageNameToNixExpression`) -/

def isAsciiAlpha (c : Char) : Bool :=
  ('A' ≤ c && c ≤ 'Z') || ('a' ≤ c && c ≤ 'z')

def isAsciiDigit (c : Char) : Bool :=
  '0' ≤ c && c ≤ '9'

/-- Model of the `nixPackageIdentifierPattern` regular expression
`^[A-Za-z_][A-Za-z0-9_\x27]*$`. -/
def nixPackageIdentifierMatch : List Char → Bool
  | [] => false
  | c :: rest =>
    (isAsciiAlpha c || c = '_') &&
      rest.all fun d => isAsciiAlpha d || isAsciiDigit d || d = '_' || d = Char.ofNat 39

/-- Model of the `nixPackageSegmentPattern` regular expression
`^[A-Za-z0-9_+\x27-]+$`. -/
def nixPackageSegmentMatch (l : List Char) : Bool :=
  !(l == []) && l.all fun c =>
    isAsciiAlpha c || isAsciiDigit c || c = '_' || c = '+' || c = Char.ofNat 39 || c = '-'

/-- Model of `escapeNixString` (the `nixStringEscaper` replacer). -/
def escapeNixString (value : String) : String :=
  ⟨value.data.flatMap fun c =>
    if c = Char.ofNat 92 then [Char.ofNat 92, Char.ofNat 92]
    else if c = Char.ofNat 34 then [Char.ofNat 92, Char.ofNat 34]
    else if c = Char.ofNat 36 then [Char.ofNat 92, Char.ofNat 36]
    else if c = Char.ofNat 10 then [Char.ofNat 92, Char.ofNat 110]
    else if c = Char.ofNat 13 then [Char.ofNat 92, Char.ofNat 114]
    else if c = Char.ofNat 9 then [Char.ofNat 92, Char.ofNat 116]
    else [c]⟩

/-- Lower-case hex digit for a value below 16. -/
def lowerHexDigit (n : Nat) : Char :=
  if n < 10 then Char.ofNat (0x30 + n) else Char.ofNat (0x57 + n)

/-- How Go's `%q` verb (`strconv.Quote`) renders one character: standard
escapes, hex escapes for other control bytes, everything printable as-is. -/
def goQuoteChar (c : Char) : List Char :=
  if c = Char.ofNat 34 then [Char.ofNat 92, Char.ofNat 34]
  else if c = Char.ofNat 92 then [Char.ofNat 92, Char.ofNat 92]
  else if c = Char.ofNat 10 then [Char.ofNat 92, Char.ofNat 110]
  else if c = Char.ofNat 13 then [Char.ofNat 92, Char.ofNat 114]
  else if c = Char.ofNat 9 then [Char.ofNat 92, Char.ofNat 116]
  else if c.toNat < 32 ∨ c.toNat = 127 then
    [Char.ofNat 92, Char.ofNat 120, lowerHexDigit (c.toNat / 16), lowerHexDigit (c.toNat % 16)]
  else [c]

/-- Model of Go's `strconv.Quote` as used by the `%q` verb. -/
def goQuote (s : String) : String :=
  "\u0022" ++ String.mk (s.data.flatMap goQuoteChar) ++ "\u0022"

/-- The per-segment check loop of `packageNameToNixExpression`: the first
empty segment or segment with unsupported characters decides the error. -/
def checkSegments : List (List Char) → Except String Unit
  | [] => .ok ()
  | seg :: rest =>
    if seg == [] then .error "package name contains empty segment"
    else if !nixPackageSegmentMatch seg then .error "package name contains unsupported characters"
    else checkSegments rest

/-- Rendering of one segment: bare when it is a valid identifier, quoted and
escaped otherwise. -/
def nixSegmentPart (seg : List Char) : String :=
  if nixPackageIdentifierMatch seg then String.mk seg
  else "\u0022" ++ escapeNixString (String.mk seg) ++ "\u0022"

/-- Model of `packageNameToNixExpression`. -/
def packageNameToNixExpression (packageName : String) : Except String String :=
  let trimmed := goTrimSpace packageName
  if trimmed = "" then .error "package name is empty"
  else
    let segments := splitOnChar (Char.ofNat 46) trimmed.data
    match checkSegments segments with
    | .error e => .error e
    | .ok _ =>
      let expression := String.intercalate "." (segments.map nixSegmentPart)
      if segments.any (fun seg => !nixPackageIdentifierMatch seg) then
        .ok ("pkgs." ++ expression)
      else .ok expression

/-- Model of `normalizePackageList`: trim, drop blanks, de-duplicate keeping
first occurrences. -/
def normalizePackageListLoop (seen : List String) : List String → List String
  | [] => []
  | item :: rest =>
    let trimmed := goTrimSpace item
    if trimmed = "" then normalizePackageListLoop seen rest
    else if seen.contains trimmed then normalizePackageListLoop seen rest
    else trimmed :: normalizePackageListLoop (trimmed :: seen) rest

def normalizePackageList (packages : List String) : List String :=
  normalizePackageListLoop [] packages

/-- The translation loop of `buildPackageExpressions`: the first failing
package aborts with an error naming it via `%q`. -/
def buildPackageExpressionsLoop : List String → Except String (List String)
  | [] => .ok []
  | pkg :: rest =>
    match packageNameToNixExpression pkg with
    | .error e => .error ("package " ++ goQuote pkg ++ ": " ++ e)
    | .ok expr =>
      match buildPackageExpressionsLoop rest with
      | .error e => .error e
      | .ok exprs => .ok (expr :: exprs)

/-- Model of `buildPackageExpressions`. -/
def buildPackageExpressions (packages : List String) : Except String (List String) :=
  buildPackageExpressionsLoop (normalizePackageList packages)


theorem checkSegments_ok_iff (segs : List (List Char)) :
    checkSegments segs = .ok () ↔
      ∀ seg ∈ segs, seg ≠ [] ∧ nixPackageSegmentMatch seg = true := by
  induction segs with
  | nil => simp [checkSegments]
  | cons seg rest ih =>
    unfold checkSegments
    by_cases h0 : seg = []
    · rw [if_pos (by simp [h0])]
      constructor
      · intro h; cases h
      · intro h
        exact absurd h0 (h seg (List.mem_cons_self seg rest)).1
    · rw [if_neg (by simp [h0])]
      cases hm : nixPackageSegmentMatch seg
      · rw [if_pos (by simp)]
        constructor
        · intro h; cases h
        · intro h
          have := (h seg (List.mem_cons_self seg rest)).2
          rw [hm] at this
          cases this
      · rw [if_neg (by simp)]
        rw [ih]
        constructor
        · intro h x hx
          rcases List.mem_cons.mp hx with hx | hx
          · rw [hx]; exact ⟨h0, hm⟩
          · exact h x hx
        · intro h x hx
          exact h x (List.mem_cons_of_mem seg hx)

theorem identifier_implies_segment (seg : List Char)
    (h : nixPackageIdentifierMatch seg = true) : nixPackageSegmentMatch seg = true := by
  cases seg with
  | nil => cases h
  | cons c rest =>
    simp only [nixPackageIdentifierMatch, Bool.and_eq_true, List.all_eq_true,
      Bool.or_eq_true, decide_eq_true_eq] at h
    obtain ⟨hc, hrest⟩ := h
    simp only [nixPackageSegmentMatch, Bool.and_eq_true, List.all_eq_true,
      Bool.or_eq_true, decide_eq_true_eq]
    refine ⟨by simp, ?_⟩
    intro d hd
    rcases List.mem_cons.mp hd with hd | hd
    · subst hd
      tauto
    · have h2 := hrest d hd
      tauto

theorem identifier_nonempty (seg : List Char)
    (h : nixPackageIdentifierMatch seg = true) : seg ≠ [] := by
  cases seg with
  | nil => cases h
  | cons c rest => simp

theorem buildPackageExpressionsLoop_error (pkgs : List String) :
    ∀ e : String, buildPackageExpressionsLoop pkgs = .error e →
      ∃ pkg ∈ pkgs, ∃ inner,
        packageNameToNixExpression pkg = .error inner ∧
        e = "package " ++ goQuote pkg ++ ": " ++ inner := by
  induction pkgs with
  | nil => intro e h; cases h
  | cons pkg rest ih =>
    intro e h
    unfold buildPackageExpressionsLoop at h
    cases hp : packageNameToNixExpression pkg with
    | error inner =>
      rw [hp] at h
      cases h
      exact ⟨pkg, List.mem_cons_self pkg rest, inner, hp, rfl⟩
    | ok expr =>
      rw [hp] at h
      cases hl : buildPackageExpressionsLoop rest with
      | error e2 =>
        rw [hl] at h
        cases h
        obtain ⟨pkg2, hm, inner, hpi, heq⟩ := ih _ hl
        exact ⟨pkg2, List.mem_cons_of_mem pkg hm, inner, hpi, heq⟩
      | ok exprs =>
        rw [hl] at h
        cases h


/-- C10: package-name translation succeeds exactly when the trimmed name,
split on dots, has no empty segment and every segment is within the
permitted character set; a failure during overlay generation is reported as
an error naming the offending package; an all-identifier name renders as the
dotted attribute path; otherwise offending segments are quoted and the
expression is rooted at the `pkgs.` namespace; and concretely `vim` and
`python3Packages.requests` render as themselves while a segment containing a
slash is rejected naming the package. -/
theorem c10_package_expressions :
    (∀ name : String, (packageNameToNixExpression name).isOk = true ↔
      ∀ seg ∈ splitOnChar (Char.ofNat 46) (goTrimSpace name).data,
        seg ≠ [] ∧ nixPackageSegmentMatch seg = true) ∧
    (∀ (packages : List String) (e : String), buildPackageExpressions packages = .error e →
      ∃ pkg ∈ normalizePackageList packages, ∃ inner,
        packageNameToNixExpression pkg = .error inner ∧
        e = "package " ++ goQuote pkg ++ ": " ++ inner) ∧
    (∀ name : String,
      (∀ seg ∈ splitOnChar (Char.ofNat 46) (goTrimSpace name).data,
        nixPackageIdentifierMatch seg = true) →
      packageNameToNixExpression name =
        .ok (String.intercalate "."
          ((splitOnChar (Char.ofNat 46) (goTrimSpace name).data).map String.mk))) ∧
    (∀ name : String,
      (∀ seg ∈ splitOnChar (Char.ofNat 46) (goTrimSpace name).data,
        seg ≠ [] ∧ nixPackageSegmentMatch seg = true) →
      (∃ seg ∈ splitOnChar (Char.ofNat 46) (goTrimSpace name).data,
        nixPackageIdentifierMatch seg = false) →
      packageNameToNixExpression name =
        .ok ("pkgs." ++ String.intercalate "."
          ((splitOnChar (Char.ofNat 46) (goTrimSpace name).data).map nixSegmentPart))) ∧
    packageNameToNixExpression "vim" = .ok "vim" ∧
    packageNameToNixExpression "python3Packages.requests" = .ok "python3Packages.requests" ∧
    buildPackageExpressions ["foo/bar"] =
      .error ("package " ++ goQuote "foo/bar" ++ ": package name contains unsupported characters") := by
  refine ⟨?_, ?_, ?_, ?_, rfl, rfl, rfl⟩
  · intro name
    unfold packageNameToNixExpression
    dsimp only
    by_cases htr : goTrimSpace name = ""
    · rw [if_pos htr]
      constructor
      · intro h; cases h
      · intro h
        have hmem : ([] : List Char) ∈ splitOnChar (Char.ofNat 46) (goTrimSpace name).data := by
          rw [htr]
          exact List.mem_cons_self _ _
        exact absurd rfl (h [] hmem).1
    · rw [if_neg htr]
      cases hcs : checkSegments (splitOnChar (Char.ofNat 46) (goTrimSpace name).data) with
      | error e =>
        dsimp only
        constructor
        · intro h
          cases h
        · intro h
          have := (checkSegments_ok_iff _).mpr h
          rw [hcs] at this
          cases this
      | ok u =>
        cases u
        dsimp only
        constructor
        · intro _
          exact (checkSegments_ok_iff _).mp hcs
        · intro _
          dsimp only
          split <;> rfl
  · intro packages e h
    exact buildPackageExpressionsLoop_error (normalizePackageList packages) e h
  · intro name hid
    by_cases htr : goTrimSpace name = ""
    · exfalso
      have hmem : ([] : List Char) ∈ splitOnChar (Char.ofNat 46) (goTrimSpace name).data := by
        rw [htr]
        exact List.mem_cons_self _ _
      have := hid [] hmem
      cases this
    · unfold packageNameToNixExpression
      dsimp only
      rw [if_neg htr]
      have hok : checkSegments (splitOnChar (Char.ofNat 46) (goTrimSpace name).data) =
          .ok () := by
        rw [checkSegments_ok_iff]
        intro seg hseg
        exact ⟨identifier_nonempty seg (hid seg hseg),
          identifier_implies_segment seg (hid seg hseg)⟩
      rw [hok]
      dsimp only
      rw [if_neg (by
        rw [Bool.not_eq_true, List.any_eq_false]
        intro seg hseg
        simp [hid seg hseg])]
      have hmap : List.map nixSegmentPart (splitOnChar (Char.ofNat 46) (goTrimSpace name).data) =
          List.map String.mk (splitOnChar (Char.ofNat 46) (goTrimSpace name).data) :=
        List.map_congr_left fun seg hseg => by
          unfold nixSegmentPart
          rw [if_pos (hid seg hseg)]
      rw [hmap]
  · intro name hall hex
    by_cases htr : goTrimSpace name = ""
    · exfalso
      have hmem : ([] : List Char) ∈ splitOnChar (Char.ofNat 46) (goTrimSpace name).data := by
        rw [htr]
        exact List.mem_cons_self _ _
      exact absurd rfl (hall [] hmem).1
    · unfold packageNameToNixExpression
      dsimp only
      rw [if_neg htr]
      have hok : checkSegments (splitOnChar (Char.ofNat 46) (goTrimSpace name).data) =
          .ok () := (checkSegments_ok_iff _).mpr hall
      rw [hok]
      dsimp only
      rw [if_pos (by
        rw [List.any_eq_true]
        obtain ⟨seg, hseg, hfalse⟩ := hex
        exact ⟨seg, hseg, by simp [hfalse]⟩)]

/-- Witness for C10: translating the package list `["foo/bar"]` fails with
an error naming the offending package. -/
theorem c10_package_expressions_witness :
    ∃ pkg ∈ normalizePackageList ["foo/bar"], ∃ inner,
      packageNameToNixExpression pkg = .error inner ∧
      "package " ++ goQuote "foo/bar" ++ ": package name contains unsupported characters" =
        "package " ++ goQuote pkg ++ ": " ++ inner :=
  c10_package_expressions.2.1 ["foo/bar"] _ rfl


/-! ## SHA-256 (model of `crypto/sha256`) and base64 (model of `encoding/base64`) -/

def w32 (n : Nat) : Nat := n % 4294967296

def rotr32 (n x : Nat) : Nat := ((x >>> n) ||| (x <<< (32 - n))) % 4294967296

def sha256K : List Nat :=
  [1116352408, 1899447441, 3049323471, 3921009573, 961987163, 1508970993,
   2453635748, 2870763221, 3624381080, 310598401, 607225278, 1426881987,
   1925078388, 2162078206, 2614888103, 3248222580, 3835390401, 4022224774,
   264347078, 604807628, 770255983, 1249150122, 1555081692, 1996064986,
   2554220882, 2821834349, 2952996808, 3210313671, 3336571891, 3584528711,
   113926993, 338241895, 666307205, 773529912, 1294757372, 1396182291,
   1695183700, 1986661051, 2177026350, 2456956037, 2730485921, 2820302411,
   3259730800, 3345764771, 3516065817, 3600352804, 4094571909, 275423344,
   430227734, 506948616, 659060556, 883997877, 958139571, 1322822218,
   1537002063, 1747873779, 1955562222, 2024104815, 2227730452, 2361852424,
   2428436474, 2756734187, 3204031479, 3329325298]

def sha256H0 : List Nat :=
  [1779033703, 3144134277, 1013904242, 2773480762,
   1359893119, 2600822924, 528734635, 1541459225]

/-- Big-endian 8-byte encoding of a 64-bit length. -/
def beBytes8 (n : Nat) : List Nat :=
  [56, 48, 40, 32, 24, 16, 8, 0].map fun s => (n >>> s) % 256

/-- SHA-256 message padding: a 1-bit, zeros to 56 mod 64, and the bit length. -/
def sha256Pad (msg : List Nat) : List Nat :=
  let len := msg.length
  let padZeros := (119 - len % 64) % 64
  msg ++ [0x80] ++ List.replicate padZeros 0 ++ beBytes8 (8 * len)

/-- Big-endian grouping of bytes into 32-bit words. -/
def bytesToWords : List Nat → List Nat
  | a :: b :: c :: d :: rest => (((a * 256 + b) * 256 + c) * 256 + d) :: bytesToWords rest
  | _ => []

/-- Fuel-driven grouping into 16-word blocks (the fuel keeps the recursion
structural so that the kernel can evaluate it). -/
def toBlocksAux : Nat → List Nat → List (List Nat)
  | 0, _ => []
  | _ + 1, [] => []
  | fuel + 1, w :: rest => (w :: rest).take 16 :: toBlocksAux fuel ((w :: rest).drop 16)

def toBlocks (l : List Nat) : List (List Nat) := toBlocksAux l.length l

/-- The SHA-256 message schedule: extend 16 words to 64. -/
def sha256Schedule (block : List Nat) : List Nat :=
  (List.range 48).foldl
    (fun w _ =>
      let n := w.length
      let s0v := rotr32 7 (w.getD (n - 15) 0) ^^^ rotr32 18 (w.getD (n - 15) 0) ^^^
        ((w.getD (n - 15) 0) >>> 3)
      let s1v := rotr32 17 (w.getD (n - 2) 0) ^^^ rotr32 19 (w.getD (n - 2) 0) ^^^
        ((w.getD (n - 2) 0) >>> 10)
      w ++ [w32 ((w.getD (n - 16) 0) + s0v + (w.getD (n - 7) 0) + s1v)])
    block

/-- One SHA-256 compression round over a 16-word block. -/
def sha256Compress (hv : List Nat) (block : List Nat) : List Nat :=
  let w := sha256Schedule block
  let final := (List.range 64).foldl
    (fun st i =>
      match st with
      | [a, b, c, d, e, f, g, hh] =>
        let s1 := rotr32 6 e ^^^ rotr32 11 e ^^^ rotr32 25 e
        let ch := (e &&& f) ^^^ ((4294967295 ^^^ e) &&& g)
        let t1 := w32 (hh + s1 + ch + sha256K.getD i 0 + w.getD i 0)
        let s0 := rotr32 2 a ^^^ rotr32 13 a ^^^ rotr32 22 a
        let maj := (a &&& b) ^^^ (a &&& c) ^^^ (b &&& c)
        let t2 := w32 (s0 + maj)
        [w32 (t1 + t2), a, b, c, w32 (d + t1), e, f, g]
      | other => other)
    hv
  List.zipWith (fun x y => w32 (x + y)) hv final

/-- SHA-256 digest of a byte sequence (model of `sha256.Sum256`; it agrees
with the FIPS 180-4 test vectors for the empty message and `"abc"`). -/
def sha256Bytes (msg : List Nat) : List Nat :=
  let hfinal := (toBlocks (bytesToWords (sha256Pad msg))).foldl sha256Compress sha256H0
  hfinal.flatMap fun wv => [(wv >>> 24) % 256, (wv >>> 16) % 256, (wv >>> 8) % 256, wv % 256]

/-- Lower-case hex rendering of a digest (model of `hex.EncodeToString`). -/
def sha256Hex (msg : List Nat) : String :=
  ⟨(sha256Bytes msg).flatMap fun b => [lowerHexDigit (b / 16), lowerHexDigit (b % 16)]⟩

/-- Value of one base64 standard-alphabet character. -/
def base64CharVal (c : Char) : Option Nat :=
  if 'A' ≤ c ∧ c ≤ 'Z' then some (c.toNat - 65)
  else if 'a' ≤ c ∧ c ≤ 'z' then some (c.toNat - 71)
  else if '0' ≤ c ∧ c ≤ '9' then some (c.toNat + 4)
  else if c = '+' then some 62
  else if c = Char.ofNat 47 then some 63
  else none

/-- Decode padded base64 quantums; `=` is legal only in the final quantum. -/
def base64DecodeGroups : List Char → Option (List Nat)
  | [] => some []
  | c1 :: c2 :: c3 :: c4 :: rest =>
    match base64CharVal c1, base64CharVal c2 with
    | some v1, some v2 =>
      if c3 = Char.ofNat 61 then
        if c4 = Char.ofNat 61 ∧ rest = [] then some [(v1 <<< 2 ||| v2 >>> 4) % 256]
        else none
      else
        match base64CharVal c3 with
        | some v3 =>
          if c4 = Char.ofNat 61 then
            if rest = [] then
              some [(v1 <<< 2 ||| v2 >>> 4) % 256, (v2 <<< 4 ||| v3 >>> 2) % 256]
            else none
          else
            match base64CharVal c4 with
            | some v4 =>
              match base64DecodeGroups rest with
              | some bs =>
                some ([(v1 <<< 2 ||| v2 >>> 4) % 256, (v2 <<< 4 ||| v3 >>> 2) % 256,
                  (v3 <<< 6 ||| v4) % 256] ++ bs)
              | none => none
            | none => none
        | none => none
    | _, _ => none
  | _ => none

/-- Model of Go's `base64.StdEncoding.DecodeString`: newline characters are
ignored, the input must consist of padded 4-character quantums, and trailing
padding bits are not checked (the default encoding is lenient). -/
def goBase64StdDecode (s : String) : Option (List Nat) :=
  base64DecodeGroups (s.data.filter fun c => c ≠ Char.ofNat 13 ∧ c ≠ Char.ofNat 10)

/-! ## Kernel configuration validation (`routes/profile_kernel.go`) -/

def maxKernelPatchCount : Nat := 32
def maxKernelPatchSizeBytes : Nat := 512 * 1024
def maxKernelPatchTotalSizeBytes : Nat := 4 * 1024 * 1024

structure ProfileKernelPatch where
  Name : String
  SHA256 : String
  ContentBase64 : String
  deriving Repr, DecidableEq

structure ProfileKernelSourceOverride where
  Enabled : Bool
  URL : String
  Ref : String
  Rev : String
  Patches : List ProfileKernelPatch
  deriving Repr, DecidableEq

structure ProfileKernelConfig where
  Attr : String
  SourceOverride : ProfileKernelSourceOverride
  deriving Repr, DecidableEq

/-- Model of the `profileKernelAttrPattern` regular expression
`^linux_[0-9]+_[0-9]+(_hardened)?$`. -/
def profileKernelAttrMatch (s : String) : Bool :=
  let l := s.data
  if l.take 6 = "linux_".data then
    let r := l.drop 6
    let d1 := r.takeWhile isAsciiDigit
    if d1 = [] then false
    else
      match r.drop d1.length with
      | c :: r3 =>
        if c = '_' then
          let d2 := r3.takeWhile isAsciiDigit
          if d2 = [] then false
          else
            let r4 := r3.drop d2.length
            (r4 = [] || r4 = "_hardened".data)
        else false
      | [] => false
  else false

/-- Model of the `profileKernelPatchSHA256Pattern` regular expression
`^[0-9a-f]{64}$`. -/
def profileKernelPatchSHA256Match (s : String) : Bool :=
  s.data.length = 64 && s.data.all fun c => isAsciiDigit c || ('a' ≤ c && c ≤ 'f')

/-- Model of `isValidProfileKernelPatchName`. -/
def isValidProfileKernelPatchName (name : String) : Bool :=
  let trimmed := goTrimSpace name
  !(trimmed == "") && trimmed.data.length ≤ 128 &&
    !(goContainsChar trimmed (Char.ofNat 47)) && !(goContainsChar trimmed (Char.ofNat 92)) &&
    !(trimmed == ".") && !(trimmed == "..") &&
    trimmed.data.all fun c => 32 ≤ c.toNat && c.toNat ≤ 126

/-- Model of `normalizeProfileKernelPatch`. -/
def normalizeProfileKernelPatch (patch : ProfileKernelPatch) : ProfileKernelPatch :=
  { Name := goTrimSpace patch.Name,
    SHA256 := goToLower (goTrimSpace patch.SHA256),
    ContentBase64 := goTrimSpace patch.ContentBase64 }

/-- Model of `normalizeProfileKernelPatches`. -/
def normalizeProfileKernelPatches (patches : List ProfileKernelPatch) :
    List ProfileKernelPatch :=
  patches.map normalizeProfileKernelPatch

/-- Model of `normalizeProfileKernelConfig`: trim all fields and clear the
source override fields when the override is disabled. -/
def normalizeProfileKernelConfig (config : ProfileKernelConfig) : ProfileKernelConfig :=
  let so := config.SourceOverride
  if so.Enabled then
    let so2 : ProfileKernelSourceOverride :=
      { Enabled := true, URL := goTrimSpace so.URL, Ref := goTrimSpace so.Ref,
        Rev := goTrimSpace so.Rev, Patches := normalizeProfileKernelPatches so.Patches }
    { Attr := goTrimSpace config.Attr, SourceOverride := so2 }
  else
    let so2 : ProfileKernelSourceOverride :=
      { Enabled := false, URL := "", Ref := "", Rev := "", Patches := [] }
    { Attr := goTrimSpace config.Attr, SourceOverride := so2 }

/-- Model of the scheme/host extraction of `net/url.Parse` for the absolute
URLs this validation accepts: a letter-led scheme before `:`, then `//`, an
authority up to the first `/`, `?` or `#`, and the host after any userinfo
`@`; control characters make parsing fail. -/
def goURLSchemeHost (s : String) : Option (String × String) :=
  let l := s.data
  if l.any (fun c => c.toNat < 32 ∨ c.toNat = 127) then none
  else
    match l with
    | [] => none
    | c :: _ =>
      if !isAsciiAlpha c then none
      else
        let schemeChars := l.takeWhile fun d =>
          isAsciiAlpha d || isAsciiDigit d || d = '+' || d = '-' || d = Char.ofNat 46
        match l.drop schemeChars.length with
        | ':' :: '/' :: '/' :: rest2 =>
          let authority := rest2.takeWhile fun d =>
            d ≠ Char.ofNat 47 ∧ d ≠ '?' ∧ d ≠ '#'
          let host := (authority.reverse.takeWhile (· ≠ '@')).reverse
          some (goToLower ⟨schemeChars⟩, ⟨host⟩)
        | ':' :: _ => some (goToLower ⟨schemeChars⟩, "")
        | _ => none

/-- The per-patch validation loop of `validateProfileKernelConfig`, with the
running total of decoded sizes. -/
def validatePatchesLoop : List ProfileKernelPatch → Nat → Except String Unit
  | [], _ => .ok ()
  | patch :: rest, totalSizeBytes =>
    if !isValidProfileKernelPatchName patch.Name then
      .error "kernel patch filename is invalid"
    else if !profileKernelPatchSHA256Match patch.SHA256 then
      .error "kernel patch checksum is invalid"
    else
      match goBase64StdDecode patch.ContentBase64 with
      | none => .error "kernel patch payload is invalid"
      | some content =>
        if content.length = 0 then .error "kernel patch payload cannot be empty"
        else if maxKernelPatchSizeBytes < content.length then
          .error "kernel patch file is too large"
        else if sha256Hex content ≠ patch.SHA256 then
          .error "kernel patch checksum mismatch"
        else if maxKernelPatchTotalSizeBytes < totalSizeBytes + content.length then
          .error "kernel patch payload is too large"
        else validatePatchesLoop rest (totalSizeBytes + content.length)

/-- Model of `validateProfileKernelConfig`. -/
def validateProfileKernelConfig (config : ProfileKernelConfig)
    (allowedAttrs : List String) : Except String Unit :=
  let normalized := normalizeProfileKernelConfig config
  if normalized.Attr ≠ "" ∧ ¬profileKernelAttrMatch normalized.Attr then
    .error "selected kernel is invalid"
  else if normalized.Attr ≠ "" ∧ 0 < allowedAttrs.length ∧
      ¬allowedAttrs.contains normalized.Attr then
    .error "selected kernel is not available in pinned nixpkgs"
  else if !normalized.SourceOverride.Enabled then
    if 0 < normalized.SourceOverride.Patches.length then
      .error "kernel patches require source override to be enabled"
    else .ok ()
  else if normalized.Attr = "" then
    .error "kernel source override requires selecting a kernel version"
  else if normalized.SourceOverride.URL = "" then
    .error "kernel source override URL is required"
  else if normalized.SourceOverride.Rev = "" then
    .error "kernel source override revision is required"
  else
    match goURLSchemeHost normalized.SourceOverride.URL with
    | none => .error "kernel source override URL must be a valid absolute URL"
    | some (scheme, host) =>
      if scheme = "" ∨ host = "" then
        .error "kernel source override URL must be a valid absolute URL"
      else if scheme ≠ "https" ∧ scheme ≠ "http" then
        .error "kernel source override URL must use http or https"
      else if maxKernelPatchCount < normalized.SourceOverride.Patches.length then
        .error "kernel patch count exceeds limit"
      else validatePatchesLoop normalized.SourceOverride.Patches 0


/-- All per-patch checks before the digest comparison: a valid filesystem
name, a well-formed declared checksum, and decodable, nonempty,
size-bounded content. -/
def patchFieldsValid (patch : ProfileKernelPatch) : Prop :=
  isValidProfileKernelPatchName patch.Name = true ∧
  profileKernelPatchSHA256Match patch.SHA256 = true ∧
  ∃ content, goBase64StdDecode patch.ContentBase64 = some content ∧
    content ≠ [] ∧ content.length ≤ maxKernelPatchSizeBytes

/-- Decoded content size of one patch (0 when the payload does not decode). -/
def patchDecodedLength (patch : ProfileKernelPatch) : Nat :=
  match goBase64StdDecode patch.ContentBase64 with
  | some content => content.length
  | none => 0

theorem validatePatchesLoop_mismatch (patches : List ProfileKernelPatch) :
    ∀ total : Nat,
      (∀ p ∈ patches, patchFieldsValid p) →
      total + (patches.map patchDecodedLength).sum ≤ maxKernelPatchTotalSizeBytes →
      (∃ p ∈ patches, ∃ content, goBase64StdDecode p.ContentBase64 = some content ∧
        sha256Hex content ≠ p.SHA256) →
      validatePatchesLoop patches total = .error "kernel patch checksum mismatch" := by
  induction patches with
  | nil =>
    intro total _ _ hex
    simp at hex
  | cons patch rest ih =>
    intro total hvalid hsum hex
    obtain ⟨hname, hsha, content, hdec, hne, hsize⟩ :=
      hvalid patch (List.mem_cons_self patch rest)
    simp only [List.map_cons, List.sum_cons] at hsum
    have hlen : patchDecodedLength patch = content.length := by
      unfold patchDecodedLength
      rw [hdec]
    rw [hlen] at hsum
    unfold validatePatchesLoop
    rw [if_neg (by simp [hname]), if_neg (by simp [hsha]), hdec]
    dsimp only
    rw [if_neg (by simp [hne]),
      if_neg (Nat.not_lt.mpr hsize)]
    by_cases hm : sha256Hex content = patch.SHA256
    · rw [if_neg (by simp [hm]), if_neg (by omega)]
      refine ih (total + content.length) ?_ (by omega) ?_
      · intro p hp
        exact hvalid p (List.mem_cons_of_mem patch hp)
      · rcases hex with ⟨p, hp, content2, hdec2, hmis⟩
        rcases List.mem_cons.mp hp with hp | hp
        · exfalso
          subst hp
          rw [hdec] at hdec2
          cases hdec2
          exact hmis hm
        · exact ⟨p, hp, content2, hdec2, hmis⟩
    · rw [if_pos hm]

/-- C9: with source override enabled and every other field of the kernel
configuration valid, a patch whose declared digest differs from the SHA-256
of its decoded content makes `validateProfileKernelConfig` fail with the
checksum-mismatch error. -/
theorem c9_kernel_patch_checksum_mismatch (config : ProfileKernelConfig)
    (henabled : (normalizeProfileKernelConfig config).SourceOverride.Enabled = true)
    (hattrne : (normalizeProfileKernelConfig config).Attr ≠ "")
    (hattr : profileKernelAttrMatch (normalizeProfileKernelConfig config).Attr = true)
    (hurlne : (normalizeProfileKernelConfig config).SourceOverride.URL ≠ "")
    (hrevne : (normalizeProfileKernelConfig config).SourceOverride.Rev ≠ "")
    (scheme host : String)
    (hparse : goURLSchemeHost (normalizeProfileKernelConfig config).SourceOverride.URL =
      some (scheme, host))
    (hhost : host ≠ "")
    (hscheme : scheme = "https" ∨ scheme = "http")
    (hcount : (normalizeProfileKernelConfig config).SourceOverride.Patches.length ≤
      maxKernelPatchCount)
    (hfields : ∀ p ∈ (normalizeProfileKernelConfig config).SourceOverride.Patches,
      patchFieldsValid p)
    (hsum : (((normalizeProfileKernelConfig config).SourceOverride.Patches).map
      patchDecodedLength).sum ≤ maxKernelPatchTotalSizeBytes)
    (hmismatch : ∃ p ∈ (normalizeProfileKernelConfig config).SourceOverride.Patches,
      ∃ content, goBase64StdDecode p.ContentBase64 = some content ∧
        sha256Hex content ≠ p.SHA256) :
    validateProfileKernelConfig config [] = .error "kernel patch checksum mismatch" := by
  unfold validateProfileKernelConfig
  dsimp only
  rw [if_neg (fun h => h.2 hattr)]
  rw [if_neg (fun h => by simp at h)]
  rw [if_neg (by simp [henabled])]
  rw [if_neg hattrne, if_neg hurlne, if_neg hrevne, hparse]
  dsimp only
  rw [if_neg (by
    intro h
    rcases h with h | h
    · rcases hscheme with hs | hs <;> subst hs <;> exact absurd h (by decide)
    · exact hhost h)]
  rw [if_neg (by
    intro h
    rcases hscheme with hs | hs
    · exact h.1 hs
    · exact h.2 hs)]
  rw [if_neg (Nat.not_lt.mpr hcount)]
  exact validatePatchesLoop_mismatch _ 0 hfields (by omega) hmismatch

/-- Kernel configuration of the C9 witness: every field valid, except that
the declared patch digest (64 zeros) is not the SHA-256 of the decoded
patch content (the single byte `A`, base64 `QQ==`). -/
def c9DemoConfig : ProfileKernelConfig :=
  { Attr := "linux_6_6",
    SourceOverride :=
      { Enabled := true, URL := "https://example.com/linux.git", Ref := "",
        Rev := "abcdef123456",
        Patches :=
          [{ Name := "fix.patch",
             SHA256 := "0000000000000000000000000000000000000000000000000000000000000000",
             ContentBase64 := "QQ==" }] } }

set_option maxRecDepth 1000000 in
/-- Witness for C9 at the concrete mismatching configuration. -/
theorem c9_kernel_patch_checksum_mismatch_witness :
    validateProfileKernelConfig c9DemoConfig [] =
      .error "kernel patch checksum mismatch" :=
  c9_kernel_patch_checksum_mismatch c9DemoConfig rfl (by decide) (by decide) (by decide)
    (by decide) "https" "example.com" rfl (by decide) (Or.inl rfl) (by decide)
    (by
      intro p hp
      have hp2 : p = normalizeProfileKernelPatch
          { Name := "fix.patch",
            SHA256 := "0000000000000000000000000000000000000000000000000000000000000000",
            ContentBase64 := "QQ==" } := by
        cases hp with
        | head => rfl
        | tail _ h => exact absurd h (List.not_mem_nil p)
      subst hp2
      exact ⟨by decide, by decide, [65], rfl, by decide, by decide⟩)
    (by decide)
    ⟨normalizeProfileKernelPatch
        { Name := "fix.patch",
          SHA256 := "0000000000000000000000000000000000000000000000000000000000000000",
          ContentBase64 := "QQ==" },
      by decide, [65], rfl, by decide⟩

end Fleeti
